import Mathlib

/-
  Verification of the Agentic-MIS business-intelligence pipeline.

  This file shallowly embeds the Python sources of the repository:

    * `bi_agent/tools.py`      — `DatabaseTools.execute_sql_query`,
                                 `execute_sql_and_format`, `get_database_schema`
    * `bi_agent/db_config.py`  — `get_schema_info`
    * `evaluate_sql.py`        — the rate-limit retry loop in `evaluate`
    * `app.py`                 — `process_request_async`

  The module `bi_agent/sql_executor.py` (functions `validate_sql` and
  `execute_query`) is imported by the sources but is not part of the source
  tree; following the specification, those two functions are modelled from
  the spec's words (their definitions below say so explicitly).

  Python strings are modelled as Lean `String` / `List Char`; Python string
  methods (`strip`, `replace`, `startswith`, `lower`) are re-implemented on
  character lists so that every definition evaluates by kernel reduction.
  Database cell values are modelled as `JValue` (null, booleans, integers and
  strings — the JSON-serialisable value kinds); pandas data frames are
  modelled as a list of rows over a column list.  Exceptions are modelled
  with `Option` / `Except`, and the database engine is modelled as a function
  from SQL text to an `Except`-valued result together with an explicit event
  trace recording every statement that actually reaches the database.
-/

/-! ### Character-list string helpers (Python `str` methods) -/

/-- Python whitespace test used by `str.strip`. -/
def isPySpace (c : Char) : Bool :=
  c = ' ' || c = '\t' || c = '\n' || c = '\r' || c = '\x0b' || c = '\x0c'

/-- Python `str.strip()` on a character list. -/
def pyStrip (l : List Char) : List Char :=
  ((l.dropWhile isPySpace).reverse.dropWhile isPySpace).reverse

/-- Tests whether `l` starts with the pattern `pat` (Python `str.startswith`). -/
def startsSeq : List Char → List Char → Bool
  | [], _ => true
  | _ :: _, [] => false
  | p :: ps, c :: cs => p == c && startsSeq ps cs

/-- Tests whether `pat` occurs contiguously anywhere in `l` (Python `in`). -/
def containsSeq (pat : List Char) : List Char → Bool
  | [] => startsSeq pat []
  | c :: cs => startsSeq pat (c :: cs) || containsSeq pat cs

/-- Python `str.replace(pat, rep)`: replaces every non-overlapping occurrence,
scanning left to right.  The fuel argument is initialised to the input length,
which suffices because every step consumes at least one character. -/
def pyReplaceAux (pat rep : List Char) : Nat → List Char → List Char
  | 0, l => l
  | _ + 1, [] => []
  | fuel + 1, c :: cs =>
    if pat ≠ [] ∧ startsSeq pat (c :: cs) = true then
      rep ++ pyReplaceAux pat rep fuel (List.drop pat.length (c :: cs))
    else
      c :: pyReplaceAux pat rep fuel cs

/-- Python `str.replace` at the `String` level. -/
def pyReplace (s pat rep : String) : String :=
  String.mk (pyReplaceAux pat.data rep.data (s.data.length + 1) s.data)

/-- Python `str.strip()` at the `String` level. -/
def pyStripS (s : String) : String := String.mk (pyStrip s.data)

/-- Python `str.lower()` at the `String` level. -/
def pyLower (s : String) : String := String.mk (s.data.map Char.toLower)

/-! ### Data model: cell values, frames, result envelopes -/

/-- A JSON-serialisable database cell value: null, boolean, integer or text.
This is the value domain of query results as they appear in the Result
Envelope (floating-point values are outside the scope of this embedding). -/
inductive JValue where
  | null
  | bool (b : Bool)
  | int (i : Int)
  | str (s : String)
deriving DecidableEq, Repr

/-- One record of a result set: a column-name/value association list, in
column order — the shape produced by `DataFrame.to_dict(orient='records')`. -/
abbrev Record := List (String × JValue)

/-- A pandas data frame, modelled as its column list and its rows. -/
structure Frame where
  columns : List String
  rows : List (List JValue)
deriving DecidableEq, Repr

/-- Python `df.to_dict(orient='records')`: each row zipped with the columns. -/
def Frame.toRecords (f : Frame) : List Record :=
  f.rows.map fun r => f.columns.zip r

/-- Python `df.empty`: true when either axis has length zero. -/
def Frame.isEmpty (f : Frame) : Bool :=
  f.rows.isEmpty || f.columns.isEmpty

/-- The canonical Result Envelope of `tools.py`: the dictionary shape
`success / data / columns / row_count / error` that every execution-style
tool returns (`error = none` models JSON `null`). -/
structure Envelope where
  success : Bool
  data : List Record
  columns : List String
  row_count : Nat
  error : Option String
deriving DecidableEq, Repr

/-! ### The SQL executor (`bi_agent/sql_executor.py`, modelled from the spec)

The module `bi_agent/sql_executor.py` is imported by `tools.py` and
`bi_service.py` but is not present in the source tree, so `validate_sql`
and `execute_query` are modelled from the specification's words for the
Query Executor: accept a single SQL statement string; reject (return a
failure envelope, never execute) anything that is not a single read-only
selection statement, robustly against leading comments, case variation and
trailing semicolons, defaulting to rejection of ambiguous input; on
acceptance execute the statement, cap the result set, and report error
kinds behind distinguishable prefixes of the single error string. -/

/-- Drops characters up to and including the first occurrence of `pat`
(used to skip past the closing marker of a block comment). -/
def dropThrough (pat : List Char) : List Char → List Char
  | [] => []
  | c :: cs =>
    if startsSeq pat (c :: cs) then List.drop (pat.length - 1) cs
    else dropThrough pat cs

/-- Modelled from the spec: the leading-trivia stripper of `validate_sql`
(missing module `bi_agent/sql_executor.py`).  Removes leading whitespace,
`--` line comments and block comments so that statement-kind checking is
robust to leading comments.  Fuel is initialised to the input length. -/
def stripLeadTrivia : Nat → List Char → List Char
  | 0, l => l
  | fuel + 1, l =>
    match l with
    | [] => []
    | c :: cs =>
      if isPySpace c then stripLeadTrivia fuel cs
      else if startsSeq [ '-', '-' ] l then
        stripLeadTrivia fuel (cs.tail.dropWhile (fun d => d ≠ '\n'))
      else if startsSeq [ '/', '*' ] l then
        stripLeadTrivia fuel (dropThrough [ '*', '/' ] cs.tail)
      else l

/-- Modelled from the spec: the statement body considered by `validate_sql`
(missing module `bi_agent/sql_executor.py`) — the input with leading
whitespace/comments and trailing whitespace/semicolons removed. -/
def strippedBody (sql : String) : List Char :=
  let noLead := stripLeadTrivia (sql.data.length + 1) sql.data
  ((noLead.reverse.dropWhile (fun c => isPySpace c || c = ';')).reverse)

/-- The kind of a SQL statement: its first keyword (the leading alphabetic
run of the stripped body), upper-cased.  Case variation, leading comments
and trailing semicolons do not affect it. -/
def statementKind (sql : String) : String :=
  String.mk (((strippedBody sql).takeWhile Char.isAlpha).map Char.toUpper)

/-- Modelled from the spec: `validate_sql` of the missing module
`bi_agent/sql_executor.py`.  A statement is valid exactly when its stripped
body is a single statement whose first keyword is `SELECT`; everything
else — write statements, multiple statements, empty or ambiguous input —
is rejected with an explanatory message. -/
def validate_sql (sql : String) : Bool × String :=
  if statementKind sql = "SELECT" then
    if (strippedBody sql).contains ';' then
      (false, "multiple SQL statements are not allowed")
    else (true, "")
  else (false, "only single read-only SELECT statements are allowed")

/-- One observable database interaction: a statement that actually reaches
the database engine.  A run whose event trace is empty never contacted the
database at all — in particular it never reached the write path. -/
inductive DbEvent where
  | exec (sql : String)
deriving DecidableEq, Repr

/-- The database engine handed to `execute_query`: how the engine answers a
statement that is actually executed, and the result-set row cap. -/
structure SqlEngine where
  run : String → Except String Frame
  maxRows : Nat

/-- The raw result dictionary produced by `execute_query` (the missing
module's analogue of the Result Envelope, with the data still a frame). -/
structure QueryResult where
  success : Bool
  data : Option Frame
  columns : List String
  row_count : Nat
  error : Option String

/-- Modelled from the spec: `execute_query` of the missing module
`bi_agent/sql_executor.py`.  Validates the statement first and, on
rejection, returns a failure result without contacting the database (empty
event trace); on acceptance it executes the statement, caps the result set
at `engine.maxRows`, and converts the outcome into a result dictionary,
prefixing validation and execution errors distinguishably. -/
def execute_query (engine : SqlEngine) (sql : String) :
    QueryResult × List DbEvent :=
  let v := validate_sql sql
  if v.1 then
    match engine.run sql with
    | .error e =>
      ({ success := false, data := none, columns := [], row_count := 0,
         error := some ("Execution error: " ++ e) }, [ .exec sql ])
    | .ok fr =>
      let capped : Frame := { fr with rows := fr.rows.take engine.maxRows }
      ({ success := true, data := some capped, columns := fr.columns,
         row_count := capped.rows.length, error := none }, [ .exec sql ])
  else
    ({ success := false, data := none, columns := [], row_count := 0,
       error := some ("Validation error: " ++ v.2) }, [])

/-! ### `DatabaseTools.execute_sql_query` (`bi_agent/tools.py`, lines 45-85) -/

/-- Embeds `DatabaseTools.execute_sql_query`: runs `execute_query` and
normalises its result dictionary into the Result Envelope, converting the
frame with `to_dict(orient='records')` on success and returning the fixed
failure shape otherwise. -/
def execute_sql_query (engine : SqlEngine) (sql : String) :
    Envelope × List DbEvent :=
  let (result, evs) := execute_query engine sql
  if result.success then
    ({ success := true,
       data := match result.data with
               | some df => df.toRecords
               | none => [],
       columns := result.columns,
       row_count := result.row_count,
       error := none }, evs)
  else
    ({ success := false, data := [], columns := [], row_count := 0,
       error := result.error }, evs)

/-! ### Shared helper lemmas -/

/-- A string with a non-empty first part is itself non-empty. -/
theorem prefixed_ne_empty (p x : String) (hp : p.data ≠ []) : p ++ x ≠ "" := by
  intro h
  apply hp
  cases p with
  | mk l =>
    cases x with
    | mk m =>
      have h2 : l ++ m = [] := congrArg String.data h
      simp at h2
      simp [h2.1]

/-! ### Claim C1 -/

/-- The write-statement kinds named by the specification. -/
def writeStatementKinds : List String :=
  [ "INSERT", "UPDATE", "DELETE", "DROP", "ALTER", "TRUNCATE" ]

/-- A fixed demonstration engine (its answers are irrelevant to rejected
statements, which never reach it). -/
def demoEngine : SqlEngine :=
  { run := fun _ => .ok { columns := [], rows := [] }, maxRows := 10000 }

/-- C1: for every input string whose statement kind (first keyword after
leading comments and whitespace, upper-cased, trailing semicolons ignored)
is INSERT, UPDATE, DELETE, DROP, ALTER or TRUNCATE, `execute_sql_query`
returns an envelope with `success = false` and its event trace is empty:
the statement never reaches the database, in particular not its write
path.  Ambiguity is rejected by default since only a statement kind equal
to SELECT is ever accepted by `validate_sql`. -/
theorem C1_query_executor_rejects_non_select (engine : SqlEngine) (sql : String)
    (h : statementKind sql ∈ writeStatementKinds) :
    (execute_sql_query engine sql).1.success = false ∧
    (execute_sql_query engine sql).2 = [] := by
  have hk : statementKind sql ≠ "SELECT" := by
    intro hsel
    rw [hsel] at h
    exact absurd h (by decide)
  have hv : (validate_sql sql).1 = false := by
    unfold validate_sql
    rw [if_neg hk]
  constructor <;> simp [execute_sql_query, execute_query, hv]

/-- Witness for C1: a case-mangled DROP behind a leading comment with
trailing semicolons is classified as DROP and rejected without any
database contact. -/
theorem C1_witness :
    statementKind "  -- obfuscated\n dRoP TABLE Products;;" ∈ writeStatementKinds ∧
    ((execute_sql_query demoEngine "  -- obfuscated\n dRoP TABLE Products;;").1.success = false ∧
     (execute_sql_query demoEngine "  -- obfuscated\n dRoP TABLE Products;;").2 = []) :=
  ⟨by decide, C1_query_executor_rejects_non_select demoEngine _ (by decide)⟩

/-! ### JSON encoding of the Result Envelope (`json.dumps` in `tools.py`)

The envelope dictionaries of `tools.py` always carry the five keys
`success`, `data`, `columns`, `row_count`, `error` in that insertion
order, so `json.dumps` renders them in exactly that order.  The encoder
below mirrors that rendering over the `JValue` value domain with the
default `', '` / `': '` separators; the `indent=2` variant used on one
call site only inserts whitespace that `json.loads` discards, and the
`ensure_ascii` transformation only changes the byte-level spelling of
characters, not the decoded structure, so neither affects the decoded
value. -/

/-- Decimal digit character for `d < 10`. -/
def digitChar (d : Nat) : Char := Char.ofNat (48 + d)

/-- Decimal digit test on characters. -/
def isDigitCh (c : Char) : Bool := 48 ≤ c.toNat && c.toNat ≤ 57

/-- Decimal digit characters of a natural number, most significant first. -/
def natChars (n : Nat) : List Char :=
  if n = 0 then [ '0' ] else ((Nat.digits 10 n).reverse.map digitChar)

/-- The characters of an integer: optional minus sign, then digits —
exactly how `json.dumps` renders a Python `int`. -/
def intChars (i : Int) : List Char :=
  if i < 0 then '-' :: natChars i.natAbs else natChars i.toNat

/-- JSON escape of a single character, as `json.dumps` performs it for the
characters it must escape (quote, backslash and the named control
characters); all other characters pass through. -/
def escChar (c : Char) : List Char :=
  if c = '"' then [ '\\', '"' ]
  else if c = '\\' then [ '\\', '\\' ]
  else if c = '\n' then [ '\\', 'n' ]
  else if c = '\t' then [ '\\', 't' ]
  else if c = '\r' then [ '\\', 'r' ]
  else if c = '\x08' then [ '\\', 'b' ]
  else if c = '\x0c' then [ '\\', 'f' ]
  else [ c ]

/-- JSON escape of a character sequence (the body of a string literal). -/
def escBody (l : List Char) : List Char := (l.map escChar).flatten

/-- A JSON string literal: quote, escaped body, quote. -/
def encStr (s : String) : List Char := '"' :: escBody s.data ++ [ '"' ]

/-- One scalar value rendered as JSON text. -/
def encJValue : JValue → List Char
  | .null => "null".data
  | .bool true => "true".data
  | .bool false => "false".data
  | .int i => intChars i
  | .str s => encStr s

/-- Items joined by a separator (the `', '` of `json.dumps`). -/
def sepList (sep : List Char) : List (List Char) → List Char
  | [] => []
  | [x] => x
  | x :: y :: xs => x ++ sep ++ sepList sep (y :: xs)

/-- A JSON array of pre-rendered items. -/
def encArr (items : List (List Char)) : List Char :=
  '[' :: sepList ", ".data items ++ [ ']' ]

/-- One `key: value` member of a JSON object. -/
def encPairL (p : String × JValue) : List Char :=
  encStr p.1 ++ ": ".data ++ encJValue p.2

/-- One result record as a JSON object, members in column order (the
order `DataFrame.to_dict(orient='records')` produces). -/
def encRecord (r : Record) : List Char :=
  '{' :: sepList ", ".data (r.map encPairL) ++ [ '}' ]

/-- The Result Envelope rendered as the exact five-key JSON object shape
produced by `json.dumps` on the envelope dictionaries of `tools.py`. -/
def encodeEnvelopeL (e : Envelope) : List Char :=
  '{' :: "\"success\": ".data ++ encJValue (.bool e.success)
  ++ ", \"data\": ".data ++ encArr (e.data.map encRecord)
  ++ ", \"columns\": ".data ++ encArr (e.columns.map encStr)
  ++ ", \"row_count\": ".data ++ natChars e.row_count
  ++ ", \"error\": ".data
  ++ (match e.error with
      | none => "null".data
      | some s => encStr s)
  ++ [ '}' ]

/-- String-level envelope encoder (`json.dumps(response)`). -/
def encodeEnvelope (e : Envelope) : String := String.mk (encodeEnvelopeL e)

/-! ### JSON decoding of the Result Envelope (`json.loads` in `app.py`)

`app.py` decodes the executor's output with `json.loads`; since the text
is always an envelope object, decoding is modelled by a parser for the
five-key envelope shape.  The parser is a total function on all strings,
returning `none` where `json.loads` would raise or where the decoded
object is not an envelope. -/

/-- Consumes an expected literal character sequence. -/
def expectSeq : List Char → List Char → Option (List Char)
  | [], cs => some cs
  | _ :: _, [] => none
  | p :: ps, c :: cs => if p = c then expectSeq ps cs else none

/-- The inverse of `escChar` on the character following a backslash. -/
def unescChar (c : Char) : Option Char :=
  if c = '"' then some '"'
  else if c = '\\' then some '\\'
  else if c = 'n' then some '\n'
  else if c = 't' then some '\t'
  else if c = 'r' then some '\r'
  else if c = 'b' then some '\x08'
  else if c = 'f' then some '\x0c'
  else none

/-- Parses the body of a string literal after its opening quote,
accumulating decoded characters in reverse. -/
def parseStrBody (acc : List Char) : List Char → Option (String × List Char)
  | [] => none
  | c :: cs =>
    if c = '"' then some (String.mk acc.reverse, cs)
    else if c = '\\' then
      match cs with
      | [] => none
      | e :: cs' =>
        match unescChar e with
        | some d => parseStrBody (d :: acc) cs'
        | none => none
    else parseStrBody (c :: acc) cs

/-- Numeric value of a digit character run, most significant first. -/
def digitsVal (ds : List Char) : Nat :=
  ds.foldl (fun a c => a * 10 + (c.toNat - 48)) 0

/-- Parses a non-empty run of decimal digits. -/
def parseNat (cs : List Char) : Option (Nat × List Char) :=
  let ds := cs.takeWhile isDigitCh
  if ds.isEmpty then none
  else some (digitsVal ds, cs.dropWhile isDigitCh)

/-- Parses one scalar JSON value (null, boolean, integer or string). -/
def parseJValue : List Char → Option (JValue × List Char)
  | [] => none
  | c :: rest =>
    if c = 'n' then (expectSeq "ull".data rest).map (fun r => (.null, r))
    else if c = 't' then (expectSeq "rue".data rest).map (fun r => (.bool true, r))
    else if c = 'f' then (expectSeq "alse".data rest).map (fun r => (.bool false, r))
    else if c = '"' then (parseStrBody [] rest).map (fun p => (.str p.1, p.2))
    else if c = '-' then (parseNat rest).map (fun p => (.int (-(p.1 : Int)), p.2))
    else if isDigitCh c then (parseNat (c :: rest)).map (fun p => (.int (p.1 : Int), p.2))
    else none

/-- Parses the members of a non-empty JSON object up to and including the
closing brace; the fuel bounds the number of members. -/
def parsePairsAux : Nat → List Char → Option (Record × List Char)
  | 0, _ => none
  | fuel + 1, cs =>
    match cs with
    | '"' :: cs1 =>
      match parseStrBody [] cs1 with
      | none => none
      | some (k, cs2) =>
        match expectSeq ": ".data cs2 with
        | none => none
        | some cs3 =>
          match parseJValue cs3 with
          | none => none
          | some (v, cs4) =>
            match cs4 with
            | '}' :: rest => some ([ (k, v) ], rest)
            | ',' :: ' ' :: rest =>
              match parsePairsAux fuel rest with
              | none => none
              | some (ps, rr) => some ((k, v) :: ps, rr)
            | _ => none
    | _ => none

/-- Parses one JSON object as a record. -/
def parseRecord (fuel : Nat) (cs : List Char) : Option (Record × List Char) :=
  match cs with
  | '{' :: '}' :: rest => some ([], rest)
  | '{' :: cs1 => parsePairsAux fuel cs1
  | _ => none

/-- Parses the elements of a non-empty JSON array of records up to and
including the closing bracket. -/
def parseRecordsAux : Nat → List Char → Option (List Record × List Char)
  | 0, _ => none
  | fuel + 1, cs =>
    match parseRecord fuel cs with
    | none => none
    | some (r, cs1) =>
      match cs1 with
      | ']' :: rest => some ([ r ], rest)
      | ',' :: ' ' :: rest =>
        match parseRecordsAux fuel rest with
        | none => none
        | some (rs, rr) => some (r :: rs, rr)
      | _ => none

/-- Parses a JSON array of records (the `data` field). -/
def parseRecArr (fuel : Nat) (cs : List Char) : Option (List Record × List Char) :=
  match cs with
  | '[' :: ']' :: rest => some ([], rest)
  | '[' :: cs1 => parseRecordsAux fuel cs1
  | _ => none

/-- Parses the elements of a non-empty JSON array of strings up to and
including the closing bracket. -/
def parseStringsAux : Nat → List Char → Option (List String × List Char)
  | 0, _ => none
  | fuel + 1, cs =>
    match cs with
    | '"' :: cs1 =>
      match parseStrBody [] cs1 with
      | none => none
      | some (s, cs2) =>
        match cs2 with
        | ']' :: rest => some ([ s ], rest)
        | ',' :: ' ' :: rest =>
          match parseStringsAux fuel rest with
          | none => none
          | some (ss, rr) => some (s :: ss, rr)
        | _ => none
    | _ => none

/-- Parses a JSON array of strings (the `columns` field). -/
def parseStrArr (fuel : Nat) (cs : List Char) : Option (List String × List Char) :=
  match cs with
  | '[' :: ']' :: rest => some ([], rest)
  | '[' :: cs1 => parseStringsAux fuel cs1
  | _ => none

/-- Parses a JSON array of records, with fuel taken from the input length
(enough for any number of elements the input can hold). -/
def parseRecArrTop (cs : List Char) : Option (List Record × List Char) :=
  parseRecArr (cs.length + 1) cs

/-- Parses a JSON array of strings, with fuel taken from the input length. -/
def parseStrArrTop (cs : List Char) : Option (List String × List Char) :=
  parseStrArr (cs.length + 1) cs

/-- Decodes a Result Envelope from JSON text, as `app.py` obtains it from
`json.loads`: the five keys in canonical order, then the end of input. -/
def parseEnvelope (s : String) : Option Envelope := do
  let cs0 ← expectSeq ('{' :: "\"success\": ".data) s.data
  let (sv, cs1) ← parseJValue cs0
  let sb ← match sv with
           | .bool b => some b
           | _ => none
  let cs2 ← expectSeq ", \"data\": ".data cs1
  let (dat, cs3) ← parseRecArrTop cs2
  let cs4 ← expectSeq ", \"columns\": ".data cs3
  let (cols, cs5) ← parseStrArrTop cs4
  let cs6 ← expectSeq ", \"row_count\": ".data cs5
  let (rc, cs7) ← parseNat cs6
  let cs8 ← expectSeq ", \"error\": ".data cs7
  let (ev, cs9) ← parseJValue cs8
  let err ← match ev with
            | .null => some none
            | .str s => some (some s)
            | _ => none
  match cs9 with
  | [ '}' ] => some { success := sb, data := dat, columns := cols,
                      row_count := rc, error := err }
  | _ => none

/-! ### Round-trip lemmas: numbers -/

/-- Value of a digit character produced by `digitChar`. -/
theorem digitChar_toNat (d : Nat) (h : d < 10) : (digitChar d).toNat = 48 + d := by
  unfold digitChar Char.ofNat
  rw [dif_pos (Or.inl (by omega))]
  simp [Char.ofNatAux, Char.toNat, UInt32.toNat, BitVec.toNat_ofNatLt]

/-- Digit characters test as digits. -/
theorem digitChar_isDigit (d : Nat) (h : d < 10) : isDigitCh (digitChar d) = true := by
  simp only [isDigitCh, digitChar_toNat d h]
  simp
  omega

/-- Every character of a rendered natural number is a digit. -/
theorem natChars_all_digits (n : Nat) : ∀ c ∈ natChars n, isDigitCh c = true := by
  intro c hc
  unfold natChars at hc
  by_cases h0 : n = 0
  · rw [if_pos h0] at hc
    simp at hc
    subst hc
    decide
  · rw [if_neg h0] at hc
    simp at hc
    obtain ⟨d, hd, rfl⟩ := hc
    exact digitChar_isDigit d (Nat.digits_lt_base (by omega) hd)

/-- A rendered natural number is never empty. -/
theorem natChars_ne_nil (n : Nat) : natChars n ≠ [] := by
  unfold natChars
  by_cases h0 : n = 0
  · simp [h0]
  · rw [if_neg h0]
    simp [Nat.digits_ne_nil_iff_ne_zero, h0]

/-- Folding digit characters back into a number inverts `natChars`. -/
theorem digitsVal_natChars (n : Nat) : digitsVal (natChars n) = n := by
  unfold natChars
  by_cases h0 : n = 0
  · simp [h0, digitsVal]
  · rw [if_neg h0]
    unfold digitsVal
    rw [List.foldl_map, List.foldl_reverse]
    have key : ∀ L : List Nat, (∀ d ∈ L, d < 10) →
        L.foldr (fun x y => y * 10 + ((digitChar x).toNat - 48)) 0 = Nat.ofDigits 10 L := by
      intro L
      induction L with
      | nil => intro _; simp [Nat.ofDigits]
      | cons d L ih =>
        intro hL
        have hd : d < 10 := hL d (by simp)
        have hrest := ih (fun x hx => hL x (by simp [hx]))
        simp only [List.foldr_cons, hrest, Nat.ofDigits_cons, digitChar_toNat d hd]
        omega
    rw [key (Nat.digits 10 n) (fun d hd => Nat.digits_lt_base (by omega) hd)]
    exact Nat.ofDigits_digits 10 n

/-- Input whose first character is not a digit (or which is empty). -/
def digitFreeB : List Char → Bool
  | [] => true
  | c :: _ => !isDigitCh c

/-- `takeWhile` collects exactly a satisfying run followed by a failing head. -/
theorem takeWhile_run (p : Char → Bool) :
    ∀ (ds rest : List Char), (∀ c ∈ ds, p c = true) →
      (rest = [] ∨ ∀ c ∈ rest.head?, p c = false) →
      (ds ++ rest).takeWhile p = ds ∧ (ds ++ rest).dropWhile p = rest := by
  intro ds
  induction ds with
  | nil =>
    intro rest _ hrest
    constructor
    · cases rest with
      | nil => simp
      | cons r rs =>
        rcases hrest with h | h
        · simp at h
        · simp [List.takeWhile, h r (by simp)]
    · cases rest with
      | nil => simp
      | cons r rs =>
        rcases hrest with h | h
        · simp at h
        · simp [List.dropWhile, h r (by simp)]
  | cons d ds ih =>
    intro rest hds hrest
    have hd : p d = true := hds d (by simp)
    have hih := ih rest (fun c hc => hds c (by simp [hc])) hrest
    constructor
    · simp [List.takeWhile, hd, hih.1]
    · simp [List.dropWhile, hd, hih.2]

/-- Parsing the rendered digits of `n` recovers `n` and stops exactly at the
first non-digit. -/
theorem parseNat_enc (n : Nat) (rest : List Char) (hrest : digitFreeB rest = true) :
    parseNat (natChars n ++ rest) = some (n, rest) := by
  have hfree : rest = [] ∨ ∀ c ∈ rest.head?, isDigitCh c = false := by
    cases rest with
    | nil => exact Or.inl rfl
    | cons r rs =>
      right
      intro c hc
      simp at hc
      subst hc
      simpa [digitFreeB] using hrest
  have hrun := takeWhile_run isDigitCh (natChars n) rest (natChars_all_digits n) hfree
  unfold parseNat
  rw [hrun.1, hrun.2]
  simp [natChars_ne_nil n, digitsVal_natChars n]

/-! ### Round-trip lemmas: strings -/

/-- Consuming a literal that the input indeed starts with succeeds. -/
theorem expectSeq_append (pat : List Char) :
    ∀ rest : List Char, expectSeq pat (pat ++ rest) = some rest := by
  induction pat with
  | nil => intro rest; rfl
  | cons p ps ih => intro rest; simp [expectSeq, ih]

/-- Parsing stops and flips the accumulator at an unescaped closing quote. -/
theorem parseStrBody_close (acc rest : List Char) :
    parseStrBody acc ('"' :: rest) = some (String.mk acc.reverse, rest) := by
  unfold parseStrBody
  simp

/-- One escape sequence decodes to its character and parsing continues. -/
theorem parseStrBody_escape_step (acc : List Char) (e d : Char) (tail : List Char)
    (h : unescChar e = some d) :
    parseStrBody acc ('\\' :: e :: tail) = parseStrBody (d :: acc) tail := by
  rw [parseStrBody.eq_def]
  simp [h]

/-- An unescaped ordinary character is consumed verbatim. -/
theorem parseStrBody_plain_step (acc : List Char) (c : Char) (tail : List Char)
    (h1 : c ≠ '"') (h2 : c ≠ '\\') :
    parseStrBody acc (c :: tail) = parseStrBody (c :: acc) tail := by
  rw [parseStrBody.eq_def]
  simp [h1, h2]

/-- Parsing an escaped body undoes the escaping and stops at the closing
quote, whatever has been accumulated so far. -/
theorem parseStrBody_esc :
    ∀ (cs acc rest : List Char),
      parseStrBody acc (escBody cs ++ '"' :: rest) =
        some (String.mk (acc.reverse ++ cs), rest) := by
  intro cs
  induction cs with
  | nil =>
    intro acc rest
    simp only [escBody, List.map_nil, List.flatten_nil, List.nil_append]
    rw [parseStrBody_close]
    simp
  | cons c cs ih =>
    intro acc rest
    have hstep : escBody (c :: cs) = escChar c ++ escBody cs := by
      simp [escBody]
    rw [hstep, List.append_assoc]
    by_cases h1 : c = '"'
    · subst h1
      rw [show escChar '"' = [ '\\', '"' ] from rfl]
      rw [show ([ '\\', '"' ] : List Char) ++ (escBody cs ++ '"' :: rest)
            = '\\' :: '"' :: (escBody cs ++ '"' :: rest) from rfl]
      rw [parseStrBody_escape_step acc '"' '"' _ (by decide), ih]
      simp
    · by_cases h2 : c = '\\'
      · subst h2
        rw [show escChar '\\' = [ '\\', '\\' ] from rfl]
        rw [show ([ '\\', '\\' ] : List Char) ++ (escBody cs ++ '"' :: rest)
              = '\\' :: '\\' :: (escBody cs ++ '"' :: rest) from rfl]
        rw [parseStrBody_escape_step acc '\\' '\\' _ (by decide), ih]
        simp
      · by_cases h3 : c = '\n'
        · subst h3
          rw [show escChar '\n' = [ '\\', 'n' ] from rfl]
          rw [show ([ '\\', 'n' ] : List Char) ++ (escBody cs ++ '"' :: rest)
                = '\\' :: 'n' :: (escBody cs ++ '"' :: rest) from rfl]
          rw [parseStrBody_escape_step acc 'n' '\n' _ (by decide), ih]
          simp
        · by_cases h4 : c = '\t'
          · subst h4
            rw [show escChar '\t' = [ '\\', 't' ] from rfl]
            rw [show ([ '\\', 't' ] : List Char) ++ (escBody cs ++ '"' :: rest)
                  = '\\' :: 't' :: (escBody cs ++ '"' :: rest) from rfl]
            rw [parseStrBody_escape_step acc 't' '\t' _ (by decide), ih]
            simp
          · by_cases h5 : c = '\r'
            · subst h5
              rw [show escChar '\r' = [ '\\', 'r' ] from rfl]
              rw [show ([ '\\', 'r' ] : List Char) ++ (escBody cs ++ '"' :: rest)
                    = '\\' :: 'r' :: (escBody cs ++ '"' :: rest) from rfl]
              rw [parseStrBody_escape_step acc 'r' '\r' _ (by decide), ih]
              simp
            · by_cases h6 : c = '\x08'
              · subst h6
                rw [show escChar '\x08' = [ '\\', 'b' ] from rfl]
                rw [show ([ '\\', 'b' ] : List Char) ++ (escBody cs ++ '"' :: rest)
                      = '\\' :: 'b' :: (escBody cs ++ '"' :: rest) from rfl]
                rw [parseStrBody_escape_step acc 'b' '\x08' _ (by decide), ih]
                simp
              · by_cases h7 : c = '\x0c'
                · subst h7
                  rw [show escChar '\x0c' = [ '\\', 'f' ] from rfl]
                  rw [show ([ '\\', 'f' ] : List Char) ++ (escBody cs ++ '"' :: rest)
                        = '\\' :: 'f' :: (escBody cs ++ '"' :: rest) from rfl]
                  rw [parseStrBody_escape_step acc 'f' '\x0c' _ (by decide), ih]
                  simp
                · have he : escChar c = [ c ] := by
                    simp [escChar, h1, h2, h3, h4, h5, h6, h7]
                  rw [he]
                  rw [show ([ c ] : List Char) ++ (escBody cs ++ '"' :: rest)
                        = c :: (escBody cs ++ '"' :: rest) from rfl]
                  rw [parseStrBody_plain_step acc c _ h1 h2, ih]
                  simp

/-- Parsing a rendered string literal after its opening quote recovers the
string and the untouched remainder. -/
theorem parseStr_enc (s : String) (rest : List Char) :
    parseStrBody [] (escBody s.data ++ '"' :: rest) = some (s, rest) := by
  rw [parseStrBody_esc s.data [] rest]
  cases s
  rfl

/-! ### Round-trip lemmas: scalar values -/

/-- A digit character is none of the characters that start another kind of
JSON scalar. -/
theorem isDigit_ne_specials (c : Char) (h : isDigitCh c = true) :
    c ≠ 'n' ∧ c ≠ 't' ∧ c ≠ 'f' ∧ c ≠ '"' ∧ c ≠ '-' := by
  refine ⟨?_, ?_, ?_, ?_, ?_⟩
  all_goals intro hc
  all_goals subst hc
  all_goals exact absurd h (by decide)

/-- Parsing a rendered scalar value recovers it, provided the remainder
does not begin with a digit (so a number cannot swallow what follows). -/
theorem parseJValue_enc (v : JValue) (rest : List Char)
    (hrest : digitFreeB rest = true) :
    parseJValue (encJValue v ++ rest) = some (v, rest) := by
  have hdigitstop : rest = [] ∨ ∀ c ∈ rest.head?, isDigitCh c = false := by
    cases rest with
    | nil => exact Or.inl rfl
    | cons r rs =>
      right
      intro c hc
      simp at hc
      subst hc
      simpa [digitFreeB] using hrest
  cases v with
  | null =>
    rw [show encJValue .null ++ rest = 'n' :: 'u' :: 'l' :: 'l' :: rest from rfl]
    rw [parseJValue.eq_def]
    simp [expectSeq]
  | bool b =>
    cases b with
    | true =>
      rw [show encJValue (.bool true) ++ rest = 't' :: 'r' :: 'u' :: 'e' :: rest from rfl]
      rw [parseJValue.eq_def]
      simp [expectSeq]
    | false =>
      rw [show encJValue (.bool false) ++ rest
            = 'f' :: 'a' :: 'l' :: 's' :: 'e' :: rest from rfl]
      rw [parseJValue.eq_def]
      simp [expectSeq]
  | str s =>
    rw [show encJValue (.str s) ++ rest
          = '"' :: (escBody s.data ++ '"' :: rest) from by
        simp [encJValue, encStr]]
    rw [parseJValue.eq_def]
    simp [parseStr_enc]
  | int i =>
    by_cases hneg : i < 0
    · rw [show encJValue (.int i) ++ rest
            = '-' :: (natChars i.natAbs ++ rest) from by
          simp [encJValue, intChars, hneg]]
      rw [parseJValue.eq_def]
      simp [parseNat_enc i.natAbs rest hrest]
      simp only [Int.abs_eq_natAbs]
      omega
    · have hnn : encJValue (.int i) = natChars i.toNat := by
        simp [encJValue, intChars, hneg]
      obtain ⟨c, cs', hnc⟩ := List.exists_cons_of_ne_nil (natChars_ne_nil i.toNat)
      have hd : isDigitCh c = true := by
        apply natChars_all_digits i.toNat
        rw [hnc]
        simp
      obtain ⟨hn1, hn2, hn3, hn4, hn5⟩ := isDigit_ne_specials c hd
      rw [hnn, hnc]
      rw [show (c :: cs') ++ rest = c :: (cs' ++ rest) from rfl]
      rw [parseJValue.eq_def]
      simp only [hn1, hn2, hn3, hn4, hn5, hd, if_false, if_true, ite_false, ite_true,
        if_neg, reduceIte]
      rw [show c :: (cs' ++ rest) = (c :: cs') ++ rest from rfl, ← hnc,
        parseNat_enc i.toNat rest hrest]
      simp
      omega

/-! ### Round-trip lemmas: objects and arrays -/

/-- Consuming the last rendered member of an object up to its closing brace. -/
theorem parsePairsAux_last (f : Nat) (rest : List Char) (k : String) (v : JValue) :
    parsePairsAux (f + 1) (encPairL (k, v) ++ '}' :: rest) = some ([ (k, v) ], rest) := by
  rw [show encPairL (k, v) ++ '}' :: rest
        = '"' :: (escBody k.data ++ '"' :: (": ".data ++ (encJValue v ++ '}' :: rest))) from by
      simp [encPairL, encStr]]
  rw [parsePairsAux.eq_def]
  simp only [parseStr_enc, expectSeq_append]
  rw [parseJValue_enc v _ (by simp [digitFreeB]; decide)]
  simp

/-- Consuming a rendered member followed by the member separator. -/
theorem parsePairsAux_step (f : Nat) (tail2 : List Char) (k : String) (v : JValue) :
    parsePairsAux (f + 1) (encPairL (k, v) ++ ',' :: ' ' :: tail2) =
      (match parsePairsAux f tail2 with
       | none => none
       | some (ps, rr) => some ((k, v) :: ps, rr)) := by
  rw [show encPairL (k, v) ++ ',' :: ' ' :: tail2
        = '"' :: (escBody k.data ++ '"' :: (": ".data ++ (encJValue v ++ ',' :: ' ' :: tail2))) from by
      simp [encPairL, encStr]]
  rw [parsePairsAux.eq_def]
  simp only [parseStr_enc, expectSeq_append]
  rw [parseJValue_enc v _ (by simp [digitFreeB]; decide)]
  simp

/-- Parsing the rendered members of a non-empty record recovers the record
whenever the fuel covers the number of members. -/
theorem parsePairsAux_enc :
    ∀ (r : Record) (fuel : Nat) (rest : List Char), r ≠ [] → r.length ≤ fuel →
      parsePairsAux fuel (sepList ", ".data (r.map encPairL) ++ '}' :: rest)
        = some (r, rest) := by
  intro r
  induction r with
  | nil => intro fuel rest hne _; exact absurd rfl hne
  | cons p r' ih =>
    intro fuel rest _ hlen
    obtain ⟨k, v⟩ := p
    cases fuel with
    | zero => simp at hlen
    | succ f =>
      cases r' with
      | nil =>
        rw [show sepList ", ".data ([ (k, v) ].map encPairL) = encPairL (k, v) from rfl]
        exact parsePairsAux_last f rest k v
      | cons q r'' =>
        rw [show sepList ", ".data (((k, v) :: q :: r'').map encPairL) ++ '}' :: rest
              = encPairL (k, v)
                ++ ',' :: ' ' :: (sepList ", ".data ((q :: r'').map encPairL) ++ '}' :: rest) from by
            simp [sepList]]
        rw [parsePairsAux_step]
        rw [ih f rest (by simp) (by simp at hlen ⊢; omega)]

/-- A record object whose first member starts normally is parsed through
`parsePairsAux`. -/
theorem parseRecord_quote (fuel : Nat) (z : List Char) :
    parseRecord fuel ('{' :: '"' :: z) = parsePairsAux fuel ('"' :: z) := by
  rw [parseRecord.eq_def]
  simp

/-- Parsing a rendered record object recovers the record. -/
theorem parseRecord_enc (r : Record) (fuel : Nat) (rest : List Char)
    (hlen : r.length ≤ fuel) :
    parseRecord fuel (encRecord r ++ rest) = some (r, rest) := by
  cases r with
  | nil =>
    rw [show encRecord [] ++ rest = '{' :: '}' :: rest from rfl]
    rw [parseRecord.eq_def]
    simp
  | cons p r' =>
    obtain ⟨k, v⟩ := p
    cases r' with
    | nil =>
      have hshape : encRecord [ (k, v) ] ++ rest
          = '{' :: '"' :: (escBody k.data ++ '"' :: (": ".data
              ++ (encJValue v ++ '}' :: rest))) := by
        simp [encRecord, sepList, encPairL, encStr]
      have hback : ('"' :: (escBody k.data ++ '"' :: (": ".data
              ++ (encJValue v ++ '}' :: rest))) : List Char)
          = sepList ", ".data ([ (k, v) ].map encPairL) ++ '}' :: rest := by
        simp [sepList, encPairL, encStr]
      rw [hshape, parseRecord_quote, hback]
      exact parsePairsAux_enc [ (k, v) ] fuel rest (by simp) hlen
    | cons q r'' =>
      have hshape : encRecord ((k, v) :: q :: r'') ++ rest
          = '{' :: '"' :: (escBody k.data ++ '"' :: (": ".data
              ++ (encJValue v ++ ',' :: ' ' ::
                (sepList ", ".data ((q :: r'').map encPairL) ++ '}' :: rest)))) := by
        simp [encRecord, sepList, encPairL, encStr]
      have hback : ('"' :: (escBody k.data ++ '"' :: (": ".data
              ++ (encJValue v ++ ',' :: ' ' ::
                (sepList ", ".data ((q :: r'').map encPairL) ++ '}' :: rest)))) : List Char)
          = sepList ", ".data (((k, v) :: q :: r'').map encPairL) ++ '}' :: rest := by
        simp [sepList, encPairL, encStr]
      rw [hshape, parseRecord_quote, hback]
      exact parsePairsAux_enc ((k, v) :: q :: r'') fuel rest (by simp) hlen

/-- Unfolding `encRecord` against a continuation. -/
theorem encRecord_cons_shape (r : Record) (x : List Char) :
    encRecord r ++ x = '{' :: (sepList ", ".data (r.map encPairL) ++ '}' :: x) := by
  simp [encRecord]

/-- Parsing the rendered elements of a non-empty record array recovers them
whenever the fuel covers every record and its members. -/
theorem parseRecordsAux_enc :
    ∀ (rs : List Record) (fuel : Nat) (rest : List Char), rs ≠ [] →
      (∀ r ∈ rs, rs.length + r.length ≤ fuel) →
      parseRecordsAux fuel (sepList ", ".data (rs.map encRecord) ++ ']' :: rest)
        = some (rs, rest) := by
  intro rs
  induction rs with
  | nil => intro fuel rest hne _; exact absurd rfl hne
  | cons r rs' ih =>
    intro fuel rest _ hb
    cases fuel with
    | zero =>
      have := hb r (by simp)
      simp at this
    | succ f =>
      have hlen : r.length ≤ f := by
        have := hb r (by simp)
        simp at this
        omega
      cases rs' with
      | nil =>
        rw [show sepList ", ".data ([ r ].map encRecord) ++ ']' :: rest
              = encRecord r ++ ']' :: rest from by simp [sepList]]
        rw [parseRecordsAux.eq_def]
        simp [parseRecord_enc r f (']' :: rest) hlen]
      | cons r2 rs'' =>
        rw [show sepList ", ".data ((r :: r2 :: rs'').map encRecord) ++ ']' :: rest
              = encRecord r ++ ',' :: ' ' ::
                  (sepList ", ".data ((r2 :: rs'').map encRecord) ++ ']' :: rest) from by
            simp [sepList]]
        rw [parseRecordsAux.eq_def]
        have hih := ih f rest (by simp) (by
          intro r' hr'
          have := hb r' (by simp [hr'])
          simp at this ⊢
          omega)
        simp at hih
        simp [parseRecord_enc r f _ hlen, hih]

/-- A record array whose first element is an object parses through
`parseRecordsAux`. -/
theorem parseRecArr_brace (fuel : Nat) (z : List Char) :
    parseRecArr fuel ('[' :: '{' :: z) = parseRecordsAux fuel ('{' :: z) := by
  rw [parseRecArr.eq_def]
  simp

/-- Parsing a rendered record array recovers the records. -/
theorem parseRecArr_enc (rs : List Record) (fuel : Nat) (rest : List Char)
    (hb : ∀ r ∈ rs, rs.length + r.length ≤ fuel) :
    parseRecArr fuel (encArr (rs.map encRecord) ++ rest) = some (rs, rest) := by
  cases rs with
  | nil =>
    rw [show encArr ([].map encRecord) ++ rest = '[' :: ']' :: rest from rfl]
    rw [parseRecArr.eq_def]
    simp
  | cons r rs' =>
    have houter : encArr ((r :: rs').map encRecord) ++ rest
        = '[' :: (sepList ", ".data ((r :: rs').map encRecord) ++ ']' :: rest) := by
      simp [encArr]
    have hsplit : sepList ", ".data ((r :: rs').map encRecord) ++ ']' :: rest
        = encRecord r ++ (match rs' with
            | [] => ']' :: rest
            | r2 :: rs'' =>
              ',' :: ' ' :: (sepList ", ".data ((r2 :: rs'').map encRecord) ++ ']' :: rest)) := by
      cases rs' with
      | nil => simp [sepList]
      | cons r2 rs'' => simp [sepList]
    rw [houter, hsplit, encRecord_cons_shape, parseRecArr_brace,
      ← encRecord_cons_shape, ← hsplit]
    exact parseRecordsAux_enc (r :: rs') fuel rest (by simp) hb

/-- Parsing the rendered elements of a non-empty string array recovers them
whenever the fuel covers the number of elements. -/
theorem parseStringsAux_enc :
    ∀ (ss : List String) (fuel : Nat) (rest : List Char), ss ≠ [] →
      ss.length ≤ fuel →
      parseStringsAux fuel (sepList ", ".data (ss.map encStr) ++ ']' :: rest)
        = some (ss, rest) := by
  intro ss
  induction ss with
  | nil => intro fuel rest hne _; exact absurd rfl hne
  | cons s ss' ih =>
    intro fuel rest _ hlen
    cases fuel with
    | zero => simp at hlen
    | succ f =>
      cases ss' with
      | nil =>
        rw [show sepList ", ".data ([ s ].map encStr) ++ ']' :: rest
              = '"' :: (escBody s.data ++ '"' :: ']' :: rest) from by
            simp [sepList, encStr]]
        rw [parseStringsAux.eq_def]
        simp [parseStr_enc s (']' :: rest)]
      | cons s2 ss'' =>
        rw [show sepList ", ".data ((s :: s2 :: ss'').map encStr) ++ ']' :: rest
              = '"' :: (escBody s.data ++ '"' :: ',' :: ' ' ::
                  (sepList ", ".data ((s2 :: ss'').map encStr) ++ ']' :: rest)) from by
            simp [sepList, encStr]]
        rw [parseStringsAux.eq_def]
        have hih := ih f rest (by simp) (by simp at hlen ⊢; omega)
        simp at hih
        simp [parseStr_enc s _, hih]

/-- A string array whose first element is a string literal parses through
`parseStringsAux`. -/
theorem parseStrArr_quote (fuel : Nat) (z : List Char) :
    parseStrArr fuel ('[' :: '"' :: z) = parseStringsAux fuel ('"' :: z) := by
  rw [parseStrArr.eq_def]
  simp

/-- Parsing a rendered string array recovers the strings. -/
theorem parseStrArr_enc (ss : List String) (fuel : Nat) (rest : List Char)
    (hlen : ss.length ≤ fuel) :
    parseStrArr fuel (encArr (ss.map encStr) ++ rest) = some (ss, rest) := by
  cases ss with
  | nil =>
    rw [show encArr ([].map encStr) ++ rest = '[' :: ']' :: rest from rfl]
    rw [parseStrArr.eq_def]
    simp
  | cons s ss' =>
    cases ss' with
    | nil =>
      have houter : encArr ([ s ].map encStr) ++ rest
          = '[' :: '"' :: (escBody s.data ++ '"' :: ']' :: rest) := by
        simp [encArr, sepList, encStr]
      have hback : ('"' :: (escBody s.data ++ '"' :: ']' :: rest) : List Char)
          = sepList ", ".data ([ s ].map encStr) ++ ']' :: rest := by
        simp [sepList, encStr]
      rw [houter, parseStrArr_quote, hback]
      exact parseStringsAux_enc [ s ] fuel rest (by simp) hlen
    | cons s2 ss'' =>
      have houter : encArr ((s :: s2 :: ss'').map encStr) ++ rest
          = '[' :: '"' :: (escBody s.data ++ '"' :: ',' :: ' ' ::
              (sepList ", ".data ((s2 :: ss'').map encStr) ++ ']' :: rest)) := by
        simp [encArr, sepList, encStr]
      have hback : ('"' :: (escBody s.data ++ '"' :: ',' :: ' ' ::
              (sepList ", ".data ((s2 :: ss'').map encStr) ++ ']' :: rest)) : List Char)
          = sepList ", ".data ((s :: s2 :: ss'').map encStr) ++ ']' :: rest := by
        simp [sepList, encStr]
      rw [houter, parseStrArr_quote, hback]
      exact parseStringsAux_enc (s :: s2 :: ss'') fuel rest (by simp) hlen

/-! ### Round-trip lemmas: length bounds and top-level arrays -/

/-- A list of non-empty chunks has at least as many characters as chunks. -/
theorem count_le_sum_map : ∀ (xs : List (List Char)), (∀ x ∈ xs, 1 ≤ x.length) →
    xs.length ≤ (xs.map List.length).sum := by
  intro xs
  induction xs with
  | nil => simp
  | cons x xs ih =>
    intro h
    have h1 := h x (by simp)
    have h2 := ih (fun y hy => h y (by simp [hy]))
    simp at h2 ⊢
    omega

/-- Joining with separators only adds characters. -/
theorem sepList_len_ge (sep : List Char) :
    ∀ xs : List (List Char), (xs.map List.length).sum ≤ (sepList sep xs).length := by
  intro xs
  induction xs with
  | nil => simp [sepList]
  | cons x xs ih =>
    cases xs with
    | nil => simp [sepList]
    | cons y ys =>
      simp [sepList] at ih ⊢
      omega

/-- A rendered member is non-empty. -/
theorem encPairL_pos (p : String × JValue) : 1 ≤ (encPairL p).length := by
  obtain ⟨k, v⟩ := p
  simp [encPairL, encStr]

/-- A rendered record is longer than its member count. -/
theorem encRecord_len (r : Record) : r.length + 2 ≤ (encRecord r).length := by
  have h1 : r.length ≤ ((r.map encPairL).map List.length).sum := by
    have := count_le_sum_map (r.map encPairL) (by
      intro x hx
      rw [List.mem_map] at hx
      obtain ⟨p, _, rfl⟩ := hx
      exact encPairL_pos p)
    simpa using this
  have h2 := sepList_len_ge ", ".data (r.map encPairL)
  simp at h1 h2
  simp [encRecord]
  omega

/-- A rendered string literal is non-empty. -/
theorem encStr_pos (s : String) : 1 ≤ (encStr s).length := by
  simp [encStr]

/-- A rendered record array is long enough to cover the element count plus
any one record's member count — the fuel needed to parse it back. -/
theorem encArr_records_bound (rs : List Record) (r : Record) (hr : r ∈ rs) :
    rs.length + r.length ≤ (encArr (rs.map encRecord)).length := by
  have h1 : ((rs.map encRecord).map List.length).sum
      ≤ (sepList ", ".data (rs.map encRecord)).length := sepList_len_ge _ _
  have h2 : (rs.map (fun x => x.length + 2)).sum
      ≤ ((rs.map encRecord).map List.length).sum := by
    rw [List.map_map]
    apply List.sum_le_sum
    intro x _
    exact encRecord_len x
  have h3 : r.length ≤ (rs.map List.length).sum := by
    apply List.single_le_sum (by intro x hx; omega)
    exact List.mem_map_of_mem List.length hr
  have h4 : (rs.map (fun x => x.length + 2)).sum
      = (rs.map List.length).sum + 2 * rs.length := by
    induction rs with
    | nil => simp
    | cons a as ih => simp [ih]; ring
  simp at h1 h2 h3 h4
  simp [encArr]
  omega

/-- A rendered string array is long enough to cover its element count. -/
theorem encArr_strings_bound (ss : List String) :
    ss.length ≤ (encArr (ss.map encStr)).length := by
  have h1 : ((ss.map encStr).map List.length).sum
      ≤ (sepList ", ".data (ss.map encStr)).length := sepList_len_ge _ _
  have h2 : ss.length ≤ ((ss.map encStr).map List.length).sum := by
    have := count_le_sum_map (ss.map encStr) (by
      intro x hx
      rw [List.mem_map] at hx
      obtain ⟨s, _, rfl⟩ := hx
      exact encStr_pos s)
    simpa using this
  simp at h1 h2
  simp [encArr]
  omega

/-- Parsing a rendered record array with input-length fuel recovers it. -/
theorem parseRecArrTop_enc (rs : List Record) (rest : List Char) :
    parseRecArrTop (encArr (rs.map encRecord) ++ rest) = some (rs, rest) := by
  unfold parseRecArrTop
  apply parseRecArr_enc
  intro r hr
  have h1 := encArr_records_bound rs r hr
  simp
  omega

/-- Parsing a rendered string array with input-length fuel recovers it. -/
theorem parseStrArrTop_enc (ss : List String) (rest : List Char) :
    parseStrArrTop (encArr (ss.map encStr) ++ rest) = some (ss, rest) := by
  unfold parseStrArrTop
  apply parseStrArr_enc
  have h1 := encArr_strings_bound ss
  simp
  omega

/-! ### The envelope round trip -/

set_option maxHeartbeats 2000000 in
/-- Round trip with a null `error` field. -/
theorem envelope_roundtrip_none (sb : Bool) (dat : List Record) (cols : List String) (rc : Nat) :
    parseEnvelope (encodeEnvelope ⟨sb, dat, cols, rc, none⟩)
      = some ⟨sb, dat, cols, rc, none⟩ := by
  have h0 : (encodeEnvelope ⟨sb, dat, cols, rc, none⟩).data
      = ('{' :: "\"success\": ".data)
        ++ (encJValue (.bool sb)
        ++ (", \"data\": ".data
        ++ (encArr (dat.map encRecord)
        ++ (", \"columns\": ".data
        ++ (encArr (cols.map encStr)
        ++ (", \"row_count\": ".data
        ++ (natChars rc
        ++ (", \"error\": ".data
        ++ ("null".data
        ++ [ '}' ]))))))))) := by
    simp [encodeEnvelope, encodeEnvelopeL]
  unfold parseEnvelope
  rw [h0]
  rw [expectSeq_append]
  simp only [Option.bind_eq_bind, Option.some_bind]
  rw [parseJValue_enc (.bool sb) _ (by rfl)]
  simp only [Option.some_bind]
  rw [expectSeq_append]
  simp only [Option.some_bind]
  rw [parseRecArrTop_enc]
  simp only [Option.some_bind]
  rw [expectSeq_append]
  simp only [Option.some_bind]
  rw [parseStrArrTop_enc]
  simp only [Option.some_bind]
  rw [expectSeq_append]
  simp only [Option.some_bind]
  rw [parseNat_enc rc _ (by rfl)]
  simp only [Option.some_bind]
  rw [expectSeq_append]
  simp only [Option.some_bind]
  rw [show ("null".data ++ [ '}' ] : List Char) = encJValue .null ++ [ '}' ] from rfl]
  rw [parseJValue_enc .null [ '}' ] (by rfl)]
  simp only [Option.some_bind]

set_option maxHeartbeats 2000000 in
/-- Round trip with a string `error` field. -/
theorem envelope_roundtrip_some (sb : Bool) (dat : List Record) (cols : List String)
    (rc : Nat) (es : String) :
    parseEnvelope (encodeEnvelope ⟨sb, dat, cols, rc, some es⟩)
      = some ⟨sb, dat, cols, rc, some es⟩ := by
  have h0 : (encodeEnvelope ⟨sb, dat, cols, rc, some es⟩).data
      = ('{' :: "\"success\": ".data)
        ++ (encJValue (.bool sb)
        ++ (", \"data\": ".data
        ++ (encArr (dat.map encRecord)
        ++ (", \"columns\": ".data
        ++ (encArr (cols.map encStr)
        ++ (", \"row_count\": ".data
        ++ (natChars rc
        ++ (", \"error\": ".data
        ++ (encStr es
        ++ [ '}' ]))))))))) := by
    simp [encodeEnvelope, encodeEnvelopeL]
  unfold parseEnvelope
  rw [h0]
  rw [expectSeq_append]
  simp only [Option.bind_eq_bind, Option.some_bind]
  rw [parseJValue_enc (.bool sb) _ (by rfl)]
  simp only [Option.some_bind]
  rw [expectSeq_append]
  simp only [Option.some_bind]
  rw [parseRecArrTop_enc]
  simp only [Option.some_bind]
  rw [expectSeq_append]
  simp only [Option.some_bind]
  rw [parseStrArrTop_enc]
  simp only [Option.some_bind]
  rw [expectSeq_append]
  simp only [Option.some_bind]
  rw [parseNat_enc rc _ (by rfl)]
  simp only [Option.some_bind]
  rw [expectSeq_append]
  simp only [Option.some_bind]
  rw [show (encStr es ++ [ '}' ] : List Char) = encJValue (.str es) ++ [ '}' ] from rfl]
  rw [parseJValue_enc (.str es) [ '}' ] (by rfl)]
  simp only [Option.some_bind]

/-- Encoding a Result Envelope to JSON and decoding it again is the
identity, whatever the envelope holds. -/
theorem envelope_roundtrip (e : Envelope) :
    parseEnvelope (encodeEnvelope e) = some e := by
  obtain ⟨sb, dat, cols, rc, err⟩ := e
  cases err with
  | none => exact envelope_roundtrip_none sb dat cols rc
  | some es => exact envelope_roundtrip_some sb dat cols rc es

/-! ### Claim C7 -/

/-- C7: for every Result Envelope value of the canonical five-key shape,
encoding it to JSON as `execute_sql_and_format` does with `json.dumps` and
decoding the text again as `app.py` does with `json.loads` yields a
structure equal to the original envelope: all five keys and their values
(success flag, data records, column list, row count and error) survive the
round trip exactly. -/
theorem C7_envelope_json_roundtrip (e : Envelope) :
    parseEnvelope (encodeEnvelope e) = some e :=
  envelope_roundtrip e

/-! ### `execute_sql_and_format` (`bi_agent/tools.py`, lines 88-171)

The function reads credentials from the environment, creates an engine,
runs the query and serialises the Result Envelope as JSON, catching every
exception.  The environment is modelled as the six optional variables the
function reads; engine creation is a parameter returning `Except` so that
any exception it may raise is covered; the `try`/`except` of the source
becomes the `Except` case analysis, so the embedding is a total function —
it can never propagate an exception to its caller.  `engine.dispose()`
releases the connection pool and has no observable effect here. -/

/-- The environment variables read by `tools.py` (`os.getenv`). -/
structure EnvVars where
  mssql_server : Option String
  mssql_database : Option String
  mssql_username : Option String
  mssql_password : Option String
  mssql_driver : Option String
  trust_server_certificate : Option String

/-- Python truthiness of an `os.getenv` result: set and non-empty
(`all([server, database, username, password])`). -/
def envTruthy : Option String → Bool
  | none => false
  | some s => !s.data.isEmpty

/-- The credential check of `tools.py` line 123. -/
def credsPresent (env : EnvVars) : Bool :=
  envTruthy env.mssql_server && envTruthy env.mssql_database &&
    envTruthy env.mssql_username && envTruthy env.mssql_password

/-- The signature of `create_db_engine` (`db_config.py`): server, database,
username, password, driver, trust-certificate flag; `Except` models any
exception engine creation may raise. -/
abbrev MkEngine :=
  String → String → String → String → String → Bool → Except String SqlEngine

/-- The fixed failure envelope returned when credentials are missing. -/
def credsFailEnvelope : Envelope :=
  { success := false, data := [], columns := [], row_count := 0,
    error := some "Database credentials not configured in environment variables" }

/-- The failure envelope of the outer `except` clause. -/
def toolErrorEnvelope (e : String) : Envelope :=
  { success := false, data := [], columns := [], row_count := 0,
    error := some ("Tool error: " ++ e) }

/-- Embeds `execute_sql_and_format` up to JSON serialisation: the Result
Envelope it builds and the trace of statements that reached the database. -/
def execute_sql_and_format_response (env : EnvVars) (mk : MkEngine) (sql : String) :
    Envelope × List DbEvent :=
  let server := env.mssql_server.getD ""
  let database := env.mssql_database.getD ""
  let username := env.mssql_username.getD ""
  let password := env.mssql_password.getD ""
  let driver := env.mssql_driver.getD "ODBC Driver 18 for SQL Server"
  let trust_cert_str := pyLower (env.trust_server_certificate.getD "true")
  let trust_cert := (trust_cert_str == "true") || (trust_cert_str == "yes")
  if credsPresent env then
    match mk server database username password driver trust_cert with
    | .error e => (toolErrorEnvelope e, [])
    | .ok engine =>
      let (result, evs) := execute_query engine sql
      let response : Envelope :=
        if result.success then
          { success := true,
            data := (match result.data with
                     | some df => if df.isEmpty then [] else df.toRecords
                     | none => []),
            columns := result.columns,
            row_count := result.row_count,
            error := none }
        else
          { success := false, data := [], columns := [], row_count := 0,
            error := result.error }
      (response, evs)
  else (credsFailEnvelope, [])

/-- Embeds `execute_sql_and_format`: the JSON text handed back to the
agent, with the database event trace. -/
def execute_sql_and_format (env : EnvVars) (mk : MkEngine) (sql : String) :
    String × List DbEvent :=
  let (r, evs) := execute_sql_and_format_response env mk sql
  (encodeEnvelope r, evs)

/-! ### Claim C2 -/

/-- The shape every failure envelope must have: a non-empty error message
and empty data, columns and row count. -/
def failureShape (v : Envelope) : Prop :=
  (∃ m, v.error = some m ∧ m ≠ "") ∧ v.data = [] ∧ v.columns = [] ∧ v.row_count = 0

/-- Every failing `execute_query` result carries a non-empty, prefixed
error string. -/
theorem execute_query_error_nonempty (engine : SqlEngine) (sql : String)
    (h : (execute_query engine sql).1.success = false) :
    ∃ m, (execute_query engine sql).1.error = some m ∧ m ≠ "" := by
  unfold execute_query at h ⊢
  cases hv : (validate_sql sql).1 with
  | false =>
    simp [hv]
    exact prefixed_ne_empty _ _ (by decide)
  | true =>
    simp [hv] at h ⊢
    cases hrun : engine.run sql with
    | error e =>
      simp [hrun]
      exact prefixed_ne_empty _ _ (by decide)
    | ok fr => simp [hrun] at h

/-- C2: every Result Envelope with `success = false` returned by
`execute_sql_query` or built by `execute_sql_and_format` carries a
non-empty error string together with empty data, empty columns and a zero
row count. -/
theorem C2_failure_envelopes_well_formed (engine : SqlEngine) (env : EnvVars)
    (mk : MkEngine) (sql : String) :
    ((execute_sql_query engine sql).1.success = false →
      failureShape (execute_sql_query engine sql).1) ∧
    ((execute_sql_and_format_response env mk sql).1.success = false →
      failureShape (execute_sql_and_format_response env mk sql).1) := by
  constructor
  · intro h
    unfold execute_sql_query at h ⊢
    cases hs : (execute_query engine sql).1.success with
    | true => simp [hs] at h
    | false =>
      have herr := execute_query_error_nonempty engine sql hs
      simp [hs] at herr ⊢
      obtain ⟨m, hm, hne⟩ := herr
      exact ⟨⟨m, hm, hne⟩, rfl, rfl, rfl⟩
  · intro h
    unfold execute_sql_and_format_response at h ⊢
    by_cases hc : credsPresent env = true
    · simp [hc] at h ⊢
      cases hmk : mk (env.mssql_server.getD "") (env.mssql_database.getD "")
          (env.mssql_username.getD "") (env.mssql_password.getD "")
          (env.mssql_driver.getD "ODBC Driver 18 for SQL Server")
          ((pyLower (env.trust_server_certificate.getD "true") == "true")
            || (pyLower (env.trust_server_certificate.getD "true") == "yes")) with
      | error e =>
        simp [hmk] at h ⊢
        unfold failureShape toolErrorEnvelope
        refine ⟨⟨"Tool error: " ++ e, rfl, ?_⟩, rfl, rfl, rfl⟩
        exact prefixed_ne_empty _ _ (by decide)
      | ok engine2 =>
        simp [hmk] at h ⊢
        cases hs : (execute_query engine2 sql).1.success with
        | true => simp [hs] at h
        | false =>
          have herr := execute_query_error_nonempty engine2 sql hs
          simp [hs] at h ⊢
          unfold failureShape
          simp
          obtain ⟨m, hm, hne⟩ := herr
          exact ⟨m, hm, hne⟩
    · have hc' : credsPresent env = false := by
        cases hx : credsPresent env with
        | true => exact absurd hx hc
        | false => rfl
      simp [hc'] at h ⊢
      unfold failureShape credsFailEnvelope
      refine ⟨⟨_, rfl, by decide⟩, rfl, rfl, rfl⟩

/-- Demonstration environment with no credentials configured. -/
def demoEnvMissing : EnvVars :=
  { mssql_server := none, mssql_database := none, mssql_username := none,
    mssql_password := none, mssql_driver := none,
    trust_server_certificate := none }

/-- Demonstration engine factory. -/
def demoMk : MkEngine := fun _ _ _ _ _ _ => .ok demoEngine

/-- Witness for C2: a rejected DROP statement produces a failure envelope
of the requisite shape, as does the missing-credentials path. -/
theorem C2_witness :
    ((execute_sql_query demoEngine "DROP TABLE Products").1.success = false ∧
      failureShape (execute_sql_query demoEngine "DROP TABLE Products").1) ∧
    ((execute_sql_and_format_response demoEnvMissing demoMk "SELECT 1").1.success = false ∧
      failureShape (execute_sql_and_format_response demoEnvMissing demoMk "SELECT 1").1) := by
  have h := C2_failure_envelopes_well_formed demoEngine demoEnvMissing demoMk
  constructor
  · exact ⟨by decide, (C2_failure_envelopes_well_formed demoEngine demoEnvMissing demoMk
      "DROP TABLE Products").1 (by decide)⟩
  · exact ⟨by decide, (C2_failure_envelopes_well_formed demoEngine demoEnvMissing demoMk
      "SELECT 1").2 (by decide)⟩

/-! ### Claim C6 -/

/-- C6: when a validated query executes and its result set has no rows,
both `execute_sql_query` and `execute_sql_and_format` produce an envelope
with `success = true`, `data = []` and `row_count = 0`. -/
theorem C6_empty_result_set (engine : SqlEngine) (env : EnvVars) (mk : MkEngine)
    (sql : String) (fr : Frame)
    (hval : (validate_sql sql).1 = true)
    (hrun : engine.run sql = .ok fr)
    (hempty : fr.rows = [])
    (hcreds : credsPresent env = true)
    (hmk : mk (env.mssql_server.getD "") (env.mssql_database.getD "")
        (env.mssql_username.getD "") (env.mssql_password.getD "")
        (env.mssql_driver.getD "ODBC Driver 18 for SQL Server")
        ((pyLower (env.trust_server_certificate.getD "true") == "true")
          || (pyLower (env.trust_server_certificate.getD "true") == "yes"))
      = .ok engine) :
    ((execute_sql_query engine sql).1.success = true ∧
     (execute_sql_query engine sql).1.data = [] ∧
     (execute_sql_query engine sql).1.row_count = 0) ∧
    ((execute_sql_and_format_response env mk sql).1.success = true ∧
     (execute_sql_and_format_response env mk sql).1.data = [] ∧
     (execute_sql_and_format_response env mk sql).1.row_count = 0) := by
  have hq : execute_query engine sql
      = ({ success := true, data := some { fr with rows := [] },
           columns := fr.columns, row_count := 0, error := none }, [ .exec sql ]) := by
    unfold execute_query
    simp [hval, hrun, hempty]
  constructor
  · unfold execute_sql_query
    rw [hq]
    simp [Frame.toRecords]
  · unfold execute_sql_and_format_response
    simp [hcreds, hmk]
    rw [hq]
    simp [Frame.isEmpty]

/-- Demonstration environment with full credentials configured. -/
def demoEnvFull : EnvVars :=
  { mssql_server := some "srv", mssql_database := some "db",
    mssql_username := some "user", mssql_password := some "pw",
    mssql_driver := none, trust_server_certificate := none }

/-- Witness for C6: an accepted SELECT over an empty table yields the
successful empty envelope on both paths. -/
theorem C6_witness :
    ((validate_sql "SELECT 1").1 = true ∧
     demoEngine.run "SELECT 1" = .ok { columns := [], rows := [] } ∧
     credsPresent demoEnvFull = true) ∧
    (((execute_sql_query demoEngine "SELECT 1").1.success = true ∧
      (execute_sql_query demoEngine "SELECT 1").1.data = [] ∧
      (execute_sql_query demoEngine "SELECT 1").1.row_count = 0) ∧
     ((execute_sql_and_format_response demoEnvFull demoMk "SELECT 1").1.success = true ∧
      (execute_sql_and_format_response demoEnvFull demoMk "SELECT 1").1.data = [] ∧
      (execute_sql_and_format_response demoEnvFull demoMk "SELECT 1").1.row_count = 0)) :=
  ⟨⟨by decide, rfl, by decide⟩,
    C6_empty_result_set demoEngine demoEnvFull demoMk "SELECT 1"
      { columns := [], rows := [] } (by decide) rfl rfl (by decide) rfl⟩

/-! ### Claim C10 -/

/-- C10: whatever the environment, the engine factory's behaviour
(including any exception it raises, modelled by the `Except` error case)
and the input string, `execute_sql_and_format` returns — never raises: it
is a total function — a JSON string that the strict five-key envelope
parser decodes, so the text carries exactly the keys `success`, `data`,
`columns`, `row_count` and `error`; and when credentials are missing it
returns the fixed failure envelope with an empty database event trace,
independently of the engine factory — no connection is ever attempted. -/
theorem C10_format_total_and_guarded (env : EnvVars) (mk : MkEngine) (sql : String) :
    (∃ e : Envelope, parseEnvelope (execute_sql_and_format env mk sql).1 = some e) ∧
    (credsPresent env = false →
      execute_sql_and_format env mk sql = (encodeEnvelope credsFailEnvelope, []) ∧
      credsFailEnvelope.success = false ∧
      ∀ mk' : MkEngine,
        execute_sql_and_format env mk' sql = execute_sql_and_format env mk sql) := by
  constructor
  · refine ⟨(execute_sql_and_format_response env mk sql).1, ?_⟩
    unfold execute_sql_and_format
    exact envelope_roundtrip _
  · intro hc
    have hresp : execute_sql_and_format_response env mk sql = (credsFailEnvelope, []) := by
      unfold execute_sql_and_format_response
      simp [hc]
    refine ⟨?_, rfl, ?_⟩
    · unfold execute_sql_and_format
      rw [hresp]
    · intro mk'
      have hresp' : execute_sql_and_format_response env mk' sql = (credsFailEnvelope, []) := by
        unfold execute_sql_and_format_response
        simp [hc]
      unfold execute_sql_and_format
      rw [hresp, hresp']

/-- Witness for C10: with no credentials configured the tool returns the
fixed failure JSON, no statement reaches the database, and the parser
decodes the output. -/
theorem C10_witness :
    (credsPresent demoEnvMissing = false) ∧
    ((∃ e : Envelope,
        parseEnvelope (execute_sql_and_format demoEnvMissing demoMk "SELECT 1").1 = some e) ∧
      (execute_sql_and_format demoEnvMissing demoMk "SELECT 1"
          = (encodeEnvelope credsFailEnvelope, []) ∧
        credsFailEnvelope.success = false ∧
        ∀ mk' : MkEngine,
          execute_sql_and_format demoEnvMissing mk' "SELECT 1"
            = execute_sql_and_format demoEnvMissing demoMk "SELECT 1")) := by
  have h := C10_format_total_and_guarded demoEnvMissing demoMk "SELECT 1"
  exact ⟨by decide, h.1, h.2 (by decide)⟩

/-! ### The Schema Reader (`bi_agent/db_config.py`, `get_schema_info`)

The catalog query of `get_schema_info` selects schema, table, column,
type, nullability and default from `INFORMATION_SCHEMA` with
`ORDER BY TABLE_SCHEMA, TABLE_NAME, ORDINAL_POSITION`; the database is
modelled as the multiset of catalog rows plus the (never read) row
contents of the tables, and the `ORDER BY` as a sort by exactly those
three key fields.  The ordering on strings is the lexicographic order on
their characters. -/

theorem char_toNat_inj (a b : Char) (h : a.toNat = b.toNat) : a = b :=
  Char.ext (UInt32.ext h)

def lexLtCh : List Char → List Char → Bool
  | [], [] => false
  | [], _ :: _ => true
  | _ :: _, [] => false
  | a :: as, b :: bs =>
    if a.toNat < b.toNat then true
    else if b.toNat < a.toNat then false
    else lexLtCh as bs

theorem lexLtCh_irrefl : ∀ a, lexLtCh a a = false := by
  intro a
  induction a with
  | nil => rfl
  | cons c cs ih => simp [lexLtCh, ih]

theorem lexLtCh_asymm : ∀ a b, lexLtCh a b = true → lexLtCh b a = false := by
  intro a
  induction a with
  | nil => intro b h; cases b <;> simp [lexLtCh] at h ⊢
  | cons c cs ih =>
    intro b h
    cases b with
    | nil => simp [lexLtCh] at h
    | cons d ds =>
      simp [lexLtCh] at h ⊢
      rcases h with h | h
      · constructor
        · omega
        · intro _; omega
      · refine ⟨by omega, ?_⟩
        intro _
        exact ih ds h.2

theorem lexLtCh_connex : ∀ a b, lexLtCh a b = false → lexLtCh b a = false → a = b := by
  intro a
  induction a with
  | nil =>
    intro b h1 _
    cases b with
    | nil => rfl
    | cons d ds => simp [lexLtCh] at h1
  | cons c cs ih =>
    intro b h1 h2
    cases b with
    | nil => simp [lexLtCh] at h2
    | cons d ds =>
      simp [lexLtCh] at h1 h2
      have hcd : c.toNat = d.toNat := by omega
      have h1' : lexLtCh cs ds = false := h1.2 (by omega)
      have h2' : lexLtCh ds cs = false := h2.2 (by omega)
      rw [char_toNat_inj c d hcd, ih ds h1' h2']

theorem lexLtCh_trans : ∀ a b c, lexLtCh a b = true → lexLtCh b c = true → lexLtCh a c = true := by
  intro a
  induction a with
  | nil =>
    intro b c h1 h2
    cases b with
    | nil => simp [lexLtCh] at h1
    | cons d ds =>
      cases c with
      | nil => simp [lexLtCh] at h2
      | cons e es => simp [lexLtCh]
  | cons x xs ih =>
    intro b c h1 h2
    cases b with
    | nil => simp [lexLtCh] at h1
    | cons y ys =>
      cases c with
      | nil => simp [lexLtCh] at h2
      | cons z zs =>
        simp [lexLtCh] at h1 h2 ⊢
        rcases h1 with h1 | h1
        · rcases h2 with h2 | h2
          · left; omega
          · left; omega
        · rcases h2 with h2 | h2
          · left; omega
          · right
            exact ⟨by omega, ih ys zs h1.2 h2.2⟩

def strLt (a b : String) : Bool := lexLtCh a.data b.data

theorem strLt_irrefl (a : String) : strLt a a = false := lexLtCh_irrefl a.data
theorem strLt_asymm (a b : String) (h : strLt a b = true) : strLt b a = false :=
  lexLtCh_asymm a.data b.data h
theorem strLt_connex (a b : String) (h1 : strLt a b = false) (h2 : strLt b a = false) : a = b := by
  cases a with
  | mk l =>
    cases b with
    | mk m => exact congrArg String.mk (lexLtCh_connex l m h1 h2)
theorem strLt_trans (a b c : String) (h1 : strLt a b = true) (h2 : strLt b c = true) :
    strLt a c = true := lexLtCh_trans a.data b.data c.data h1 h2

structure CatalogRow where
  tableSchema : String
  tableName : String
  ordinalPosition : Nat
  columnName : String
  dataType : String
  isNullable : String
  columnDefault : Option String
deriving DecidableEq, Repr

def rowKey (r : CatalogRow) : String × String × Nat :=
  (r.tableSchema, r.tableName, r.ordinalPosition)

def keyLE (a b : CatalogRow) : Prop :=
  strLt a.tableSchema b.tableSchema = true ∨
    (a.tableSchema = b.tableSchema ∧
      (strLt a.tableName b.tableName = true ∨
        (a.tableName = b.tableName ∧ a.ordinalPosition ≤ b.ordinalPosition)))

instance keyLE.dec (a b : CatalogRow) : Decidable (keyLE a b) := by
  unfold keyLE
  infer_instance

theorem keyLE_total (a b : CatalogRow) : keyLE a b ∨ keyLE b a := by
  unfold keyLE
  cases h1 : strLt a.tableSchema b.tableSchema with
  | true => exact Or.inl (Or.inl rfl)
  | false =>
    cases h2 : strLt b.tableSchema a.tableSchema with
    | true => exact Or.inr (Or.inl rfl)
    | false =>
      have hs := strLt_connex _ _ h1 h2
      cases h3 : strLt a.tableName b.tableName with
      | true => exact Or.inl (Or.inr ⟨hs, Or.inl rfl⟩)
      | false =>
        cases h4 : strLt b.tableName a.tableName with
        | true => exact Or.inr (Or.inr ⟨hs.symm, Or.inl rfl⟩)
        | false =>
          have ht := strLt_connex _ _ h3 h4
          by_cases h5 : a.ordinalPosition ≤ b.ordinalPosition
          · exact Or.inl (Or.inr ⟨hs, Or.inr ⟨ht, h5⟩⟩)
          · exact Or.inr (Or.inr ⟨hs.symm, Or.inr ⟨ht.symm, by omega⟩⟩)

theorem keyLE_trans (a b c : CatalogRow) (h1 : keyLE a b) (h2 : keyLE b c) : keyLE a c := by
  unfold keyLE at h1 h2 ⊢
  rcases h1 with h1 | ⟨hs1, h1⟩
  · rcases h2 with h2 | ⟨hs2, _⟩
    · exact Or.inl (strLt_trans _ _ _ h1 h2)
    · exact Or.inl (hs2 ▸ h1)
  · rcases h2 with h2 | ⟨hs2, h2⟩
    · exact Or.inl (hs1 ▸ h2)
    · refine Or.inr ⟨hs1.trans hs2, ?_⟩
      rcases h1 with h1 | ⟨ht1, h1⟩
      · rcases h2 with h2 | ⟨ht2, _⟩
        · exact Or.inl (strLt_trans _ _ _ h1 h2)
        · exact Or.inl (ht2 ▸ h1)
      · rcases h2 with h2 | ⟨ht2, h2⟩
        · exact Or.inl (ht1 ▸ h2)
        · exact Or.inr ⟨ht1.trans ht2, by omega⟩

theorem keyLE_antisymm_key (a b : CatalogRow) (h1 : keyLE a b) (h2 : keyLE b a) :
    rowKey a = rowKey b := by
  unfold keyLE at h1 h2
  unfold rowKey
  rcases h1 with h1 | ⟨hs1, h1⟩
  · rcases h2 with h2 | ⟨hs2, _⟩
    · have := strLt_asymm _ _ h1
      rw [this] at h2
      exact absurd h2 (by simp)
    · rw [hs2] at h1
      rw [strLt_irrefl] at h1
      exact absurd h1 (by simp)
  · rcases h2 with h2 | ⟨_, h2⟩
    · rw [hs1] at h2
      rw [strLt_irrefl] at h2
      exact absurd h2 (by simp)
    · rcases h1 with h1 | ⟨ht1, h1⟩
      · rcases h2 with h2 | ⟨ht2, _⟩
        · have := strLt_asymm _ _ h1
          rw [this] at h2
          exact absurd h2 (by simp)
        · rw [ht2] at h1
          rw [strLt_irrefl] at h1
          exact absurd h1 (by simp)
      · rcases h2 with h2 | ⟨_, h2⟩
        · rw [ht1] at h2
          rw [strLt_irrefl] at h2
          exact absurd h2 (by simp)
        · rw [hs1, ht1]
          simp
          omega

def insertRow (r : CatalogRow) : List CatalogRow → List CatalogRow
  | [] => [ r ]
  | x :: xs => if keyLE r x then r :: x :: xs else x :: insertRow r xs

def sortCatalog : List CatalogRow → List CatalogRow
  | [] => []
  | r :: rs => insertRow r (sortCatalog rs)

theorem insertRow_perm (r : CatalogRow) : ∀ l, (insertRow r l).Perm (r :: l) := by
  intro l
  induction l with
  | nil => simp [insertRow]
  | cons x xs ih =>
    unfold insertRow
    by_cases h : keyLE r x
    · simp [h]
    · simp only [if_neg h]
      exact (ih.cons x).trans (List.Perm.swap r x xs)

theorem sortCatalog_perm : ∀ l, (sortCatalog l).Perm l := by
  intro l
  induction l with
  | nil => simp [sortCatalog]
  | cons x xs ih =>
    unfold sortCatalog
    exact (insertRow_perm x (sortCatalog xs)).trans (ih.cons x)

theorem insertRow_pairwise (r : CatalogRow) :
    ∀ l, l.Pairwise keyLE → (insertRow r l).Pairwise keyLE := by
  intro l
  induction l with
  | nil => intro _; simp [insertRow]
  | cons x xs ih =>
    intro hp
    rw [List.pairwise_cons] at hp
    unfold insertRow
    by_cases h : keyLE r x
    · rw [if_pos h]
      rw [List.pairwise_cons]
      constructor
      · intro y hy
        rcases List.mem_cons.mp hy with rfl | hy
        · exact h
        · exact keyLE_trans r x y h (hp.1 y hy)
      · rw [List.pairwise_cons]
        exact hp
    · rw [if_neg h]
      rw [List.pairwise_cons]
      constructor
      · intro y hy
        have hperm := insertRow_perm r xs
        rcases List.mem_cons.mp ((hperm.mem_iff).mp hy) with rfl | hy2
        · rcases keyLE_total x y with hxy | hyx
          · exact hxy
          · exact absurd hyx h
        · exact hp.1 y hy2
      · exact ih hp.2

theorem sortCatalog_pairwise : ∀ l, (sortCatalog l).Pairwise keyLE := by
  intro l
  induction l with
  | nil => simp [sortCatalog]
  | cons x xs ih => exact insertRow_pairwise x (sortCatalog xs) ih

theorem sorted_keyNodup_perm_eq :
    ∀ l1 l2 : List CatalogRow, l1.Perm l2 → l1.Pairwise keyLE → l2.Pairwise keyLE →
      (l1.map rowKey).Nodup → l1 = l2 := by
  intro l1
  induction l1 with
  | nil =>
    intro l2 hp _ _ _
    exact (List.Perm.nil_eq hp).symm ▸ rfl
  | cons x xs ih =>
    intro l2 hp hs1 hs2 hnd
    cases l2 with
    | nil => exact absurd hp.symm (by simp)
    | cons y ys =>
      rw [List.pairwise_cons] at hs1 hs2
      have hxy : x = y := by
        have hxmem : x ∈ y :: ys := hp.mem_iff.mp (by simp)
        have hymem : y ∈ x :: xs := hp.symm.mem_iff.mp (by simp)
        rcases List.mem_cons.mp hxmem with h1 | h1
        · exact h1
        · rcases List.mem_cons.mp hymem with h2 | h2
          · exact h2.symm
          · have hle1 : keyLE x y := hs1.1 y h2
            have hle2 : keyLE y x := hs2.1 x h1
            have hkey := keyLE_antisymm_key x y hle1 hle2
            rw [List.map_cons, List.nodup_cons] at hnd
            exact absurd (hkey ▸ List.mem_map_of_mem rowKey h2) hnd.1
      subst hxy
      have hys := hp.cons_inv
      rw [List.map_cons, List.nodup_cons] at hnd
      rw [ih ys hys hs1.2 hs2.2 hnd.2]

/-- A database as the Schema Reader sees it: the catalog rows of
`INFORMATION_SCHEMA` (base tables joined with their columns) and the row
contents of the tables themselves, which the catalog query never touches. -/
structure Database where
  catalog : List CatalogRow
  tableRows : String → List (List JValue)

/-- The catalog query result: the catalog rows sorted by schema, table and
ordinal position (`ORDER BY` of `get_schema_info`). -/
def fetchCatalog (db : Database) : List CatalogRow := sortCatalog db.catalog

/-- One column entry of the `tables` dictionary built by `get_schema_info`
(keys `name`, `type`, `nullable`, `default`). -/
structure ColumnInfo where
  name : String
  type : String
  nullable : String
  default : Option String
deriving DecidableEq, Repr

/-- Appending to a Python dict of lists: `tables[full_table_name].append(col)`,
creating the key at the end on first sight (insertion order preserved). -/
def dictAppend (m : List (String × List ColumnInfo)) (k : String) (v : ColumnInfo) :
    List (String × List ColumnInfo) :=
  match m with
  | [] => [ (k, [ v ]) ]
  | (k', vs) :: rest =>
    if k' = k then (k', vs ++ [ v ]) :: rest else (k', vs) :: dictAppend rest k v

/-- Python dict lookup `tables[table_name]` (the key is always present). -/
def dictGet (m : List (String × List ColumnInfo)) (k : String) : List ColumnInfo :=
  match m with
  | [] => []
  | (k', vs) :: rest => if k' = k then vs else dictGet rest k

/-- The row filter of `get_schema_info`: skip when `limit_tables` is truthy
(a non-empty list) and the table is not in it. -/
def keepRow (limit_tables : Option (List String)) (full : String) : Bool :=
  match limit_tables with
  | none => true
  | some lt => lt.isEmpty || lt.contains full

/-- The `tables` dictionary accumulation loop of `get_schema_info`. -/
def buildTablesAux (limit_tables : Option (List String))
    (acc : List (String × List ColumnInfo)) :
    List CatalogRow → List (String × List ColumnInfo)
  | [] => acc
  | row :: rows =>
    let full := row.tableSchema ++ "." ++ row.tableName
    if keepRow limit_tables full then
      buildTablesAux limit_tables
        (dictAppend acc full
          { name := row.columnName, type := row.dataType,
            nullable := row.isNullable, default := row.columnDefault }) rows
    else buildTablesAux limit_tables acc rows

/-- The `tables` dictionary of `get_schema_info`, in insertion order. -/
def buildTables (limit_tables : Option (List String)) (rows : List CatalogRow) :
    List (String × List ColumnInfo) :=
  buildTablesAux limit_tables [] rows

/-- The per-table text block of `get_schema_info`. -/
def formatTableBlock (tname : String) (cols : List ColumnInfo) : String :=
  "Table: " ++ tname ++ "\n" ++ "Columns:\n"
  ++ String.join (cols.map fun col =>
      "  - " ++ col.name ++ " (" ++ col.type ++ ", "
        ++ (if col.nullable = "YES" then "NULL" else "NOT NULL") ++ ")\n")
  ++ "\n"

/-- Embeds `get_schema_info` (`db_config.py` lines 91-154): fetch the
ordered catalog, accumulate the tables dictionary, list at most
`max_tables` of its keys, format each table, and append the more-tables
indicator when the dictionary holds more tables than the cap. -/
def get_schema_info (db : Database) (limit_tables : Option (List String))
    (max_tables : Nat) : String :=
  let rows := fetchCatalog db
  let tables := buildTables limit_tables rows
  let table_names := (tables.map Prod.fst).take max_tables
  let schema_text := "Database Schema:\n\n"
    ++ String.join (table_names.map fun n => formatTableBlock n (dictGet tables n))
  if tables.length > max_tables then
    schema_text ++ "\n... and " ++ toString (tables.length - max_tables) ++ " more tables\n"
  else schema_text

/-! ### Claims C5, C8, C9 -/

/-- String concatenation concatenates the character data. -/
theorem strData_append (a b : String) : (a ++ b).data = a.data ++ b.data := by
  cases a
  cases b
  rfl

/-- A sequence starts with itself. -/
theorem startsSeq_refl : ∀ l : List Char, startsSeq l l = true := by
  intro l
  induction l with
  | nil => rfl
  | cons c cs ih => simp [startsSeq, ih]

/-- A sequence that starts the input occurs in it. -/
theorem containsSeq_here (pat l : List Char) (h : startsSeq pat l = true) :
    containsSeq pat l = true := by
  cases l with
  | nil => simpa [containsSeq] using h
  | cons c cs => simp [containsSeq, h]

/-- Occurrence is preserved by any material in front. -/
theorem containsSeq_tail (pat : List Char) :
    ∀ (pre l : List Char), containsSeq pat l = true → containsSeq pat (pre ++ l) = true := by
  intro pre
  induction pre with
  | nil => intro l h; simpa using h
  | cons c cs ih =>
    intro l h
    simp only [List.cons_append, containsSeq, List.append_eq]
    rw [ih l h]
    simp

/-- The table names actually listed by `get_schema_info`: the first
`max_tables` keys of the tables dictionary, in order. -/
def listedTableNames (db : Database) (limit_tables : Option (List String))
    (max_tables : Nat) : List String :=
  ((buildTables limit_tables (fetchCatalog db)).map Prod.fst).take max_tables

/-- C5: when the catalog holds more base tables than the configured
maximum, `get_schema_info` lists exactly `max_tables` tables and its
output contains the indicator naming how many more tables exist. -/
theorem C5_schema_table_cap (db : Database) (max_tables : Nat)
    (h : max_tables < (buildTables none (fetchCatalog db)).length) :
    (listedTableNames db none max_tables).length = max_tables ∧
    containsSeq ("\n... and "
        ++ toString ((buildTables none (fetchCatalog db)).length - max_tables)
        ++ " more tables\n").data
      (get_schema_info db none max_tables).data = true := by
  constructor
  · simp [listedTableNames, List.length_take]
    omega
  · unfold get_schema_info
    rw [if_pos (by omega)]
    simp only [strData_append, List.append_assoc]
    exact containsSeq_tail _ _ _ (containsSeq_tail _ _ _
      (containsSeq_here _ _ (startsSeq_refl _)))

/-- C8: `get_schema_info` is deterministic over the catalog contents: any
two databases whose catalogs hold the same rows (as multisets, with the
catalog key schema/table/ordinal identifying each row uniquely, as it
does in `INFORMATION_SCHEMA`) produce identical output strings, because
the `ORDER BY` sorts the rows into one canonical order. -/
theorem C8_schema_deterministic (db1 db2 : Database) (lt : Option (List String))
    (max_tables : Nat)
    (hperm : db1.catalog.Perm db2.catalog)
    (hnd : (db1.catalog.map rowKey).Nodup) :
    get_schema_info db1 lt max_tables = get_schema_info db2 lt max_tables := by
  have heq : fetchCatalog db1 = fetchCatalog db2 := by
    apply sorted_keyNodup_perm_eq
    · exact (sortCatalog_perm _).trans (hperm.trans (sortCatalog_perm _).symm)
    · exact sortCatalog_pairwise _
    · exact sortCatalog_pairwise _
    · exact (((sortCatalog_perm db1.catalog).map rowKey).nodup_iff).mpr hnd
  unfold get_schema_info
  rw [heq]

/-- C9: `get_schema_info` reads only catalog metadata: two databases with
identical catalogs but different table row contents produce the same
output string — no row of table data can leak into it. -/
theorem C9_schema_reads_no_rows (db1 db2 : Database) (lt : Option (List String))
    (max_tables : Nat)
    (hcat : db1.catalog = db2.catalog)
    (_hrows : db1.tableRows ≠ db2.tableRows) :
    get_schema_info db1 lt max_tables = get_schema_info db2 lt max_tables := by
  unfold get_schema_info fetchCatalog
  rw [hcat]

/-- Catalog fixture rows for the demonstration databases. -/
def demoRowA : CatalogRow :=
  { tableSchema := "dbo", tableName := "A", ordinalPosition := 1,
    columnName := "c1", dataType := "int", isNullable := "NO", columnDefault := none }

/-- Second fixture row. -/
def demoRowB : CatalogRow :=
  { tableSchema := "dbo", tableName := "B", ordinalPosition := 1,
    columnName := "c2", dataType := "nvarchar", isNullable := "YES", columnDefault := none }

/-- Third fixture row. -/
def demoRowC : CatalogRow :=
  { tableSchema := "dbo", tableName := "C", ordinalPosition := 1,
    columnName := "c3", dataType := "int", isNullable := "NO", columnDefault := none }

/-- A three-table fixture database. -/
def demoDb3 : Database :=
  { catalog := [ demoRowA, demoRowB, demoRowC ], tableRows := fun _ => [] }

/-- The fixture with its catalog rows presented in another order. -/
def demoDb3Swapped : Database :=
  { catalog := [ demoRowB, demoRowA, demoRowC ], tableRows := fun _ => [] }

/-- The fixture with identical catalog but different table contents. -/
def demoDb3Data : Database :=
  { catalog := [ demoRowA, demoRowB, demoRowC ],
    tableRows := fun _ => [ [ JValue.int 1 ] ] }

/-- Witness for C5: three tables against a cap of two lists exactly two
tables plus the one-more-tables indicator. -/
theorem C5_witness :
    (2 < (buildTables none (fetchCatalog demoDb3)).length) ∧
    ((listedTableNames demoDb3 none 2).length = 2 ∧
     containsSeq ("\n... and "
         ++ toString ((buildTables none (fetchCatalog demoDb3)).length - 2)
         ++ " more tables\n").data
       (get_schema_info demoDb3 none 2).data = true) :=
  ⟨by decide, C5_schema_table_cap demoDb3 2 (by decide)⟩

/-- Witness for C8: permuting the fixture catalog leaves the output
unchanged. -/
theorem C8_witness :
    (demoDb3.catalog.Perm demoDb3Swapped.catalog ∧
      (demoDb3.catalog.map rowKey).Nodup) ∧
    get_schema_info demoDb3 none 20 = get_schema_info demoDb3Swapped none 20 :=
  ⟨⟨List.Perm.swap demoRowB demoRowA [ demoRowC ], by decide⟩,
    C8_schema_deterministic demoDb3 demoDb3Swapped none 20
      (List.Perm.swap demoRowB demoRowA [ demoRowC ]) (by decide)⟩

/-- Witness for C9: changing every table's row contents while keeping the
catalog fixed leaves the output unchanged. -/
theorem C9_witness :
    (demoDb3.catalog = demoDb3Data.catalog ∧ demoDb3.tableRows ≠ demoDb3Data.tableRows) ∧
    get_schema_info demoDb3 none 20 = get_schema_info demoDb3Data none 20 :=
  ⟨⟨rfl, fun h => absurd (congrFun h "x") (by decide)⟩,
    C9_schema_reads_no_rows demoDb3 demoDb3Data none 20 rfl
      (fun h => absurd (congrFun h "x") (by decide))⟩

/-! ### The retry loop of `evaluate_sql.py` (`evaluate`, lines 53-91)

One evaluation case runs the text-to-SQL agent inside a retry loop:
`retry_count` starts at 0, `max_retries` is 3, and the loop runs while
`retry_count < max_retries`.  A successful agent run breaks out with the
generated SQL.  An exception whose text contains `429` or
`RESOURCE_EXHAUSTED` increments `retry_count` and sleeps
`retry_count * 20` seconds; any other exception clears the SQL and breaks.
The loop is embedded below with the attempt outcomes as a function from
the attempt index, and the fuel `max_retries - retry_count`, which the
loop condition makes strictly decrease. -/

/-- The rate-limit test of `evaluate_sql.py` line 80: the exception text
contains `429` or `RESOURCE_EXHAUSTED`. -/
def isRateLimit (e : String) : Bool :=
  containsSeq "429".data e.data || containsSeq "RESOURCE_EXHAUSTED".data e.data

/-- The retry bound `max_retries = 3` of `evaluate_sql.py` line 54. -/
def max_retries : Nat := 3

/-- The retry loop body: `attempt n` is the outcome of the `n`-th agent
run (`.ok sql` for a run that completes, `.error msg` for a raised
exception).  Returns the generated SQL (empty when the loop gives up) and
the list of back-off waits in seconds, in order.  The fuel argument is
`max_retries - retry_count`; the loop exits when it reaches zero. -/
def retryLoop (attempt : Nat → Except String String) :
    Nat → Nat → List Nat → String × List Nat
  | 0, _, waits => ("", waits)
  | fuel + 1, idx, waits =>
    match attempt idx with
    | .ok sql => (sql, waits)
    | .error e =>
      if isRateLimit e then
        retryLoop attempt fuel (idx + 1) (waits ++ [ (max_retries - fuel) * 20 ])
      else ("", waits)

/-- One evaluation case's agent phase: run the retry loop from the first
attempt with no failures recorded (`retry_count = 0`). -/
def runAttempts (attempt : Nat → Except String String) : String × List Nat :=
  retryLoop attempt max_retries 0 []

/-! ### Claim C3 -/

/-- One rate-limited attempt advances the loop, recording the back-off. -/
theorem retryLoop_rate_step (attempt : Nat → Except String String)
    (fuel idx : Nat) (waits : List Nat) (e : String)
    (ha : attempt idx = .error e) (hr : isRateLimit e = true) :
    retryLoop attempt (fuel + 1) idx waits
      = retryLoop attempt fuel (idx + 1) (waits ++ [ (max_retries - fuel) * 20 ]) := by
  rw [retryLoop]
  rw [ha]
  simp [hr]

/-- A successful attempt ends the loop with its SQL. -/
theorem retryLoop_ok_step (attempt : Nat → Except String String)
    (fuel idx : Nat) (waits : List Nat) (sql : String)
    (ha : attempt idx = .ok sql) :
    retryLoop attempt (fuel + 1) idx waits = (sql, waits) := by
  rw [retryLoop]
  rw [ha]

/-- An attempt function whose first three runs raise rate-limit errors and
whose fourth run would succeed. -/
def threeRateLimitsThenOk : Nat → Except String String :=
  fun n => if n < 3 then .error "429 RESOURCE_EXHAUSTED" else .ok "SELECT 1"

/-- Counterexample to C3 as stated: three consecutive simulated rate-limit
failures followed by an available success are NOT retried through to the
successful output.  The loop `while retry_count < max_retries` admits at
most three attempts in total, so after the third rate-limited attempt it
gives up without ever requesting the fourth: the result is the empty SQL,
not the available `SELECT 1`.  The recorded back-off waits are 20, 40 and
60 seconds — linearly increasing, not exponential. -/
theorem C3_counterexample :
    threeRateLimitsThenOk 0 = .error "429 RESOURCE_EXHAUSTED" ∧
    threeRateLimitsThenOk 1 = .error "429 RESOURCE_EXHAUSTED" ∧
    threeRateLimitsThenOk 2 = .error "429 RESOURCE_EXHAUSTED" ∧
    isRateLimit "429 RESOURCE_EXHAUSTED" = true ∧
    threeRateLimitsThenOk 3 = .ok "SELECT 1" ∧
    runAttempts threeRateLimitsThenOk = ("", [ 20, 40, 60 ]) ∧
    (runAttempts threeRateLimitsThenOk).1 ≠ "SELECT 1" :=
  ⟨rfl, rfl, rfl, rfl, rfl, rfl, by decide⟩

/-- C3 as amended: the runner retries rate-limited model calls with
linearly increasing back-off (20 seconds times the number of failures so
far) within a bound of three total attempts: two consecutive rate-limit
failures followed by a success are retried and return the successful
output with waits 20 and 40; a third consecutive rate-limit failure
exhausts the bound and surfaces as a terminal no-SQL outcome (after a
final 60-second wait), without any fourth attempt. -/
theorem C3_retry_bound (attempt : Nat → Except String String) (e0 e1 : String)
    (h0 : attempt 0 = .error e0) (hr0 : isRateLimit e0 = true)
    (h1 : attempt 1 = .error e1) (hr1 : isRateLimit e1 = true) :
    (∀ sql, attempt 2 = .ok sql → runAttempts attempt = (sql, [ 20, 40 ])) ∧
    (∀ e2, attempt 2 = .error e2 → isRateLimit e2 = true →
      runAttempts attempt = ("", [ 20, 40, 60 ])) := by
  have hpre : runAttempts attempt = retryLoop attempt 1 2 [ 20, 40 ] := by
    unfold runAttempts
    rw [show max_retries = 2 + 1 from rfl]
    rw [retryLoop_rate_step attempt 2 0 [] e0 h0 hr0]
    rw [show (2 : Nat) = 1 + 1 from rfl]
    rw [retryLoop_rate_step attempt 1 1 _ e1 h1 hr1]
    norm_num [max_retries]
  constructor
  · intro sql h2
    rw [hpre]
    rw [show (1 : Nat) = 0 + 1 from rfl]
    exact retryLoop_ok_step attempt 0 2 _ sql h2
  · intro e2 h2 hr2
    rw [hpre]
    rw [show (1 : Nat) = 0 + 1 from rfl]
    rw [retryLoop_rate_step attempt 0 2 _ e2 h2 hr2]
    rw [retryLoop]
    norm_num [max_retries]

/-- An attempt function with two rate-limited runs before success. -/
def twoRateLimitsThenOk : Nat → Except String String :=
  fun n => if n < 2 then .error "429 RESOURCE_EXHAUSTED" else .ok "SELECT 1"

/-- Witness for the amended C3: with two rate-limited attempts the
success on the third attempt is returned after waits 20 and 40; the
three-failure function from the counterexample exhausts the bound. -/
theorem C3_witness :
    (twoRateLimitsThenOk 0 = .error "429 RESOURCE_EXHAUSTED" ∧
      isRateLimit "429 RESOURCE_EXHAUSTED" = true ∧
      twoRateLimitsThenOk 1 = .error "429 RESOURCE_EXHAUSTED" ∧
      twoRateLimitsThenOk 2 = .ok "SELECT 1") ∧
    runAttempts twoRateLimitsThenOk = ("SELECT 1", [ 20, 40 ]) := by
  refine ⟨⟨rfl, rfl, rfl, rfl⟩, ?_⟩
  exact (C3_retry_bound twoRateLimitsThenOk "429 RESOURCE_EXHAUSTED" "429 RESOURCE_EXHAUSTED"
    rfl rfl rfl rfl).1 "SELECT 1" rfl

/-! ### `process_request_async` (`app.py`, lines 79-174)

The presentation layer extracts the pipeline's outputs from the shared
state, cleans markdown fences from the generated SQL, decodes the query
results from JSON, and runs the model-produced chart code.  The pieces
that can raise are parameters here: `loads` stands for `json.loads`
(`none` = raised), and `evalChart` stands for `exec` of the chart code
over the data frame — `Except.error` is a raised exception, `Except.ok`
carries the optional `chart` variable the code left in its namespace.
The source wraps each risky step in its own `try`/`except`, so the
embedding is a total function: no exception propagates to the caller. -/

/-- The pipeline outputs `process_request_async` reads from final state
(each `results.get(key, default)`). -/
structure PipeResults where
  sql_query : Option String
  query_results : Option String
  chart_spec : Option String
  explanation_text : Option String

/-- The decoded query results as `app.py` consumes them: the `success`
flag (`.get('success', False)`), the `data` records (`.get('data', [])`)
and the error text (`.get('error', 'Unknown error')`). -/
structure ParsedResults where
  success : Bool
  data : List Record
  error : Option String

/-- The markdown-fence cleanup applied to the generated SQL
(`app.py` lines 107-111). -/
def cleanSql (raw : String) : String :=
  let s := pyStripS raw
  if startsSeq "```sql".data s.data then
    pyStripS (pyReplace (pyReplace s "```sql" "") "```" "")
  else if startsSeq "```".data s.data then
    pyStripS (pyReplace s "```" "")
  else s

/-- The markdown-fence cleanup applied to the chart code
(`app.py` lines 143-147). -/
def cleanChart (raw : String) : String :=
  let s := pyStripS raw
  if startsSeq "```python".data s.data then
    pyStripS (pyReplace (pyReplace s "```python" "") "```" "")
  else if startsSeq "```".data s.data then
    pyStripS (pyReplace s "```" "")
  else s

/-- Embeds `process_request_async`: returns the four outputs
(SQL text, data frame, chart, explanation). -/
def process_request_async {χ : Type}
    (loads : String → Option ParsedResults)
    (evalChart : String → List Record → Except String (Option χ))
    (message : String) (results : PipeResults) :
    String × Option (List Record) × Option χ × String :=
  if (pyStripS message).data.isEmpty then
    ("Error: Please enter a question", none, none, "Error: No question provided")
  else
    let sql_query := cleanSql (results.sql_query.getD "")
    let query_results_str := results.query_results.getD "{}"
    let query_results : ParsedResults :=
      match loads query_results_str with
      | some p => p
      | none => { success := false, data := [],
                  error := some "Failed to parse query results" }
    if query_results.success = false then
      let error_msg := query_results.error.getD "Unknown error"
      ("-- Error executing query\n" ++ sql_query ++ "\n\n-- Error: " ++ error_msg,
        none, none, "Error executing query: " ++ error_msg)
    else
      let data_list := query_results.data
      if data_list.isEmpty then
        (sql_query, some [], none,
          "The query executed successfully but returned no data.")
      else
        let df := data_list
        let chart_spec := results.chart_spec.getD ""
        let explanation_text := results.explanation_text.getD ""
        let chart : Option χ :=
          if chart_spec.data.isEmpty then none
          else
            match evalChart (cleanChart chart_spec) df with
            | .ok c => c
            | .error _ => none
        (sql_query, some df, chart, explanation_text)

/-! ### Claim C4 -/

/-- A sequence starts any extension of itself. -/
theorem startsSeq_append_self : ∀ (l x : List Char), startsSeq l (l ++ x) = true := by
  intro l
  induction l with
  | nil => intro x; rfl
  | cons c cs ih => intro x; simp [startsSeq, ih]

/-- C4: presentation-stage failures are isolated inside
`process_request_async`.  If the query-results string fails to decode as
JSON, the function still returns — the embedding is total, so no
exception escapes — with no data frame and no chart, an error explanation,
and the cleaned generated SQL text still contained in the SQL output.  If
the results decode successfully with data but evaluating the
model-produced chart code raises, the function returns the SQL text, the
data frame and the model explanation with only the chart degraded to
none. -/
theorem C4_presentation_failures_isolated {χ : Type}
    (loads : String → Option ParsedResults)
    (evalChart : String → List Record → Except String (Option χ))
    (message : String) (results : PipeResults)
    (hmsg : (pyStripS message).data.isEmpty = false) :
    (loads (results.query_results.getD "{}") = none →
      process_request_async loads evalChart message results
        = ("-- Error executing query\n" ++ cleanSql (results.sql_query.getD "")
             ++ "\n\n-- Error: " ++ "Failed to parse query results",
           none, none, "Error executing query: " ++ "Failed to parse query results") ∧
      containsSeq (cleanSql (results.sql_query.getD "")).data
        (process_request_async loads evalChart message results).1.data = true) ∧
    (∀ (p : ParsedResults) (err : String),
      loads (results.query_results.getD "{}") = some p →
      p.success = true →
      p.data.isEmpty = false →
      (results.chart_spec.getD "").data.isEmpty = false →
      evalChart (cleanChart (results.chart_spec.getD "")) p.data = .error err →
      process_request_async loads evalChart message results
        = (cleanSql (results.sql_query.getD ""), some p.data, none,
           results.explanation_text.getD "")) := by
  constructor
  · intro hload
    have hout : process_request_async loads evalChart message results
        = ("-- Error executing query\n" ++ cleanSql (results.sql_query.getD "")
             ++ "\n\n-- Error: " ++ "Failed to parse query results",
           none, none, "Error executing query: " ++ "Failed to parse query results") := by
      unfold process_request_async
      simp [hmsg, hload]
    refine ⟨hout, ?_⟩
    rw [hout]
    simp only [strData_append, List.append_assoc]
    exact containsSeq_tail _ _ _ (containsSeq_here _ _ (startsSeq_append_self _ _))
  · intro p err hload hsucc hdata hchart heval
    unfold process_request_async
    simp [hmsg, hload, hsucc, hdata, hchart, heval]

/-- Pipeline outputs used by the C4 witness. -/
def demoResults : PipeResults :=
  { sql_query := some "```sql\nSELECT Category, COUNT(*) AS Cnt FROM Products GROUP BY Category\n```",
    query_results := some "not json at all",
    chart_spec := some "chart = alt.Chart(df)",
    explanation_text := some "Three categories." }

/-- A `json.loads` double that always raises. -/
def demoLoadsNone : String → Option ParsedResults := fun _ => none

/-- A `json.loads` double returning one successful record. -/
def demoLoadsOk : String → Option ParsedResults :=
  fun _ => some { success := true, data := [ [ ("Category", JValue.str "Bikes") ] ],
                  error := none }

/-- A chart evaluator double that always raises. -/
def demoEvalBoom : String → List Record → Except String (Option Unit) :=
  fun _ _ => .error "name error"

/-- Witness for C4: with a JSON parse failure the response keeps the SQL
text and carries no chart; with good data and raising chart code only the
chart degrades. -/
theorem C4_witness :
    ((pyStripS "How many products per category?").data.isEmpty = false) ∧
    (containsSeq (cleanSql (demoResults.sql_query.getD "")).data
        (process_request_async demoLoadsNone demoEvalBoom
          "How many products per category?" demoResults).1.data = true ∧
      (process_request_async demoLoadsNone demoEvalBoom
          "How many products per category?" demoResults).2.2.1 = none) ∧
    (process_request_async demoLoadsOk demoEvalBoom
        "How many products per category?" demoResults
      = (cleanSql (demoResults.sql_query.getD ""),
         some [ [ ("Category", JValue.str "Bikes") ] ], none, "Three categories.")) := by
  have h1 := C4_presentation_failures_isolated demoLoadsNone demoEvalBoom
    "How many products per category?" demoResults (by decide)
  have h2 := C4_presentation_failures_isolated demoLoadsOk demoEvalBoom
    "How many products per category?" demoResults (by decide)
  refine ⟨by decide, ⟨(h1.1 rfl).2, ?_⟩, ?_⟩
  · rw [(h1.1 rfl).1]
  · exact h2.2 { success := true, data := [ [ ("Category", JValue.str "Bikes") ] ], error := none }
      "name error" rfl rfl rfl rfl rfl
